import Mathlib

set_option maxHeartbeats 1000000

/-!
Verification development for the two geographic-enrichment scripts of the
housing-statistics repository: `api/geo-enrich.js` and the metro-area script
(`geo-enrich-metro.js`).  Pure computations (CSV parsing, lookup-map building,
the per-row join logic, batching) are embedded as executable Lean functions
translated line by line from the JavaScript source.  The effectful `main`
functions are embedded as trace-producing functions over an environment that
records the outcome of every external interaction (DB queries, HTTP downloads);
a trace is a list of effects (queries, downloads, batched UPDATE statements,
log lines, closing the pool, exiting the process).
-/

namespace HousingEnrich

/-! ## String utilities (JS semantics) -/

/-- Whitespace test used by `trimChars` (JS `String.prototype.trim`). -/
def isWS (c : Char) : Bool := c.isWhitespace

/-- JS `s.trim()` on a list of characters: drop leading and trailing whitespace. -/
def trimChars (cs : List Char) : List Char :=
  ((cs.dropWhile isWS).reverse.dropWhile isWS).reverse

/-- JS `s.trim()`. -/
def jsTrim (s : String) : String := String.mk (trimChars s.data)

/-- JS `s.toLowerCase()` (ASCII). -/
def jsToLower (s : String) : String := String.mk (s.data.map Char.toLower)

/-- JS `s.toUpperCase()` (ASCII). -/
def jsToUpper (s : String) : String := String.mk (s.data.map Char.toUpper)

/-- JS `s.padStart(n, <zero>)`: left-pad with the zero character up to length `n`. -/
def padStart (n : Nat) (s : String) : String :=
  if n ≤ s.length then s else String.mk (List.replicate (n - s.length) '0') ++ s

/-- JS `vals[i] || <empty>` where `i` may be `-1` (from a failed
`findIndex`/`indexOf`) or out of range (yielding `undefined`, hence falsy). -/
def jsAt (vals : List String) (i : Int) : String :=
  if i < 0 then "" else vals.getD i.toNat ""

/-- JS `Array.prototype.findIndex`: index of the first element satisfying `p`,
or `-1`. -/
def jsFindIdx (p : String → Bool) (l : List String) : Int :=
  match l.findIdx? p with
  | some i => (i : Int)
  | none => -1

/-- JS `Array.prototype.indexOf` for strings. -/
def jsIndexOf (l : List String) (s : String) : Int := jsFindIdx (fun h => h == s) l

/-- Lower-cased character list of a string, for case-insensitive regex tests. -/
def lcList (s : String) : List Char := s.data.map Char.toLower

/-- `containsSeg pat l`: `pat` occurs as a contiguous segment of `l`. -/
def containsSeg (pat : List Char) : List Char → Bool
  | [] => pat.isEmpty
  | c :: rest => pat.isPrefixOf (c :: rest) || containsSeg pat rest

/-- JS `/pat/i.test(s)` for a literal lower-case pattern `pat`:
case-insensitive substring containment. -/
def ciContains (s pat : String) : Bool := containsSeg (lcList pat) (lcList s)

/-- The remainder of `l` after the first (leftmost) occurrence of `pat`,
or `none` when `pat` does not occur. -/
def afterFirst (pat : List Char) : List Char → Option (List Char)
  | [] => if pat.isEmpty then some [] else none
  | c :: rest =>
    if pat.isPrefixOf (c :: rest) then some ((c :: rest).drop pat.length)
    else afterFirst pat rest

/-- JS `/pat1.*pat2/i.test(s)`: an occurrence of `pat1` followed (possibly with
a gap) by `pat2`, case-insensitively. -/
def ciSeq (s pat1 pat2 : String) : Bool :=
  match afterFirst (lcList pat1) (lcList s) with
  | some rest => containsSeg (lcList pat2) rest
  | none => false

/-- JS truthiness of an optional string: `undefined` and the empty string are
falsy. -/
def truthyS : Option String → Option String
  | some s => if s = "" then none else some s
  | none => none

/-! ## Insertion-ordered maps (JS `Map`, modelled as association lists) -/

/-- JS `Map.prototype.set`: overwrite in place when the key exists (keeping its
position), otherwise append at the end. -/
def setA {β : Type} (m : List (String × β)) (k : String) (v : β) : List (String × β) :=
  if (m.lookup k).isSome then m.map (fun p => if p.1 = k then (k, v) else p)
  else m ++ [(k, v)]

/-- The keys of an association-list map, in insertion order. -/
def keysOf {β : Type} (m : List (String × β)) : List String := m.map Prod.fst

/-! ## The quote-aware CSV row parser

`parseCSV`/`parseRow` in `api/geo-enrich.js` (lines 53-71) and the textually
identical `parseRow` in the metro script (lines 139-151): iterate over the
characters of the line; a double quote toggles the in-quote flag and is
dropped; a comma outside quotes ends the current field (which is trimmed);
carriage returns are dropped; everything else is appended to the current
field.  At the end the last field is trimmed and pushed. -/

def parseRowAux : List Char → Bool → List Char → List (List Char)
  | [], _, cur => [trimChars cur.reverse]
  | c :: rest, inQ, cur =>
    if c = '"' then parseRowAux rest (!inQ) cur
    else if c = ',' ∧ inQ = false then trimChars cur.reverse :: parseRowAux rest inQ []
    else if c = '\r' then parseRowAux rest inQ cur
    else parseRowAux rest inQ (c :: cur)

def parseRowL (line : List Char) : List String :=
  (parseRowAux line false []).map String.mk

def parseRow (line : String) : List String := parseRowL line.data

/-- JS `s.split(sep)` for a one-character separator (`.split` in the scripts is
only used with a newline or a comma). -/
def splitOnChar (sep : Char) : List Char → List (List Char)
  | [] => [[]]
  | c :: rest =>
    if c = sep then [] :: splitOnChar sep rest
    else
      match splitOnChar sep rest with
      | [] => [[c]]
      | f :: fs => (c :: f) :: fs

structure CSVData where
  header : List String
  rows : List (List String)
  deriving Repr, DecidableEq

/-- `parseCSV` of `api/geo-enrich.js`: trim the text, split into lines, parse
the first line as the header and the rest as data rows. -/
def parseCSV (text : String) : CSVData :=
  match splitOnChar '\n' (trimChars text.data) with
  | [] => ⟨[], []⟩
  | h :: t => ⟨parseRowL h, t.map parseRowL⟩

/-- The naive row split used for the NBER crosswalk in the metro script
(line 98): `line.split(<comma>).map(v => v.replace(/"/g, <empty>).trim())` —
split on every comma, delete all double quotes, trim each field. -/
def splitSimpleL (line : List Char) : List String :=
  (splitOnChar ',' line).map (fun v => String.mk (trimChars (v.filter (fun c => c != '"'))))

/-- Number of unquoted commas of a character list, given that `q0` quote
characters precede it: a comma counts when the number of double quotes strictly
before it is even.  This is the specification-side counter for the field-count
property of the parser. -/
def uqFrom (q0 : Nat) : List Char → Nat
  | [] => 0
  | c :: rest =>
    if c = '"' then uqFrom (q0 + 1) rest
    else if c = ',' ∧ q0 % 2 = 0 then uqFrom q0 rest + 1
    else uqFrom q0 rest

def unquotedCommas (cs : List Char) : Nat := uqFrom 0 cs

/-- Positional characterisation of the same count: indices `i` holding a comma
such that the prefix before `i` contains an even number of double quotes. -/
def unquotedCommasPos (cs : List Char) : Nat :=
  ((List.range cs.length).filter (fun i =>
    cs.getD i ' ' == ',' && ((cs.take i).count '"') % 2 == 0)).length

/-- A field is trimmed: its first and last characters (when present) are not
whitespace. -/
def IsTrimmed (cs : List Char) : Prop :=
  (∀ c, cs.head? = some c → isWS c = false) ∧ (∀ c, cs.getLast? = some c → isWS c = false)

/-! ## Suffix stripping (metro script)

JS `name.replace(/ county$| parish$| borough$|.../, <empty>).trim()`: all
alternatives are `$`-anchored, so the leftmost match — the one a JS regex
engine picks — is the longest alternative that is a suffix of the string.
That suffix is removed and the result trimmed. -/

def bestSuffix (alts : List String) (s : String) : Option String :=
  alts.foldl (fun acc alt =>
    if alt.data.isSuffixOf s.data then
      match acc with
      | none => some alt
      | some b => if b.length < alt.length then some alt else some b
    else acc) none

def stripSuffix (alts : List String) (s : String) : String :=
  match bestSuffix alts s with
  | none => s
  | some alt => String.mk (trimChars (s.data.take (s.data.length - alt.data.length)))

/-- The suffix alternatives used when building `countyNameToFips`
(metro script line 170). -/
def mapSuffixes : List String :=
  [" county", " parish", " borough", " census area", " municipality",
   " city and borough", " city"]

/-- The suffix alternatives used when matching a DB county name
(metro script line 203). -/
def dbSuffixes : List String :=
  [" county", " parish", " borough", " census area", " municipality"]

/-! ## The fixed STATE_FIPS table (metro script lines 49-57) -/

def STATE_FIPS_table : List (String × String) :=
  [("AL", "01"), ("AK", "02"), ("AZ", "04"), ("AR", "05"), ("CA", "06"),
   ("CO", "08"), ("CT", "09"), ("DE", "10"), ("DC", "11"), ("FL", "12"),
   ("GA", "13"), ("HI", "15"), ("ID", "16"), ("IL", "17"), ("IN", "18"),
   ("IA", "19"), ("KS", "20"), ("KY", "21"), ("LA", "22"), ("ME", "23"),
   ("MD", "24"), ("MA", "25"), ("MI", "26"), ("MN", "27"), ("MS", "28"),
   ("MO", "29"), ("MT", "30"), ("NE", "31"), ("NV", "32"), ("NH", "33"),
   ("NJ", "34"), ("NM", "35"), ("NY", "36"), ("NC", "37"), ("ND", "38"),
   ("OH", "39"), ("OK", "40"), ("OR", "41"), ("PA", "42"), ("RI", "44"),
   ("SC", "45"), ("SD", "46"), ("TN", "47"), ("TX", "48"), ("UT", "49"),
   ("VT", "50"), ("VA", "51"), ("WA", "53"), ("WV", "54"), ("WI", "55"),
   ("WY", "56"), ("AS", "60"), ("GU", "66"), ("MP", "69"), ("PR", "72"),
   ("VI", "78")]

def STATE_FIPS (s : String) : Option String := STATE_FIPS_table.lookup s

/-! ## Database model -/

/-- A `housing_stats` row (the columns the scripts read or write).  `none`
models SQL `NULL`. -/
structure DbRow where
  zip_code : String
  state_abbr : Option String
  county_name : Option String
  metro_area : Option String
  deriving Repr, DecidableEq

/-- SQL `col IS NULL OR col = <empty>` / JS `!row.col || row.col === <empty>`. -/
def missingF : Option String → Bool
  | none => true
  | some s => s == ""

/-- The geo-enrich gap query (lines 215-220): rows with any of the three
geographic fields missing. -/
def geoSelect (table : List DbRow) : List DbRow :=
  table.filter (fun r => missingF r.state_abbr || missingF r.county_name || missingF r.metro_area)

/-- The metro-script row query (lines 185-190): non-null non-empty `state_abbr`
and missing `metro_area`. -/
def metroSelect (table : List DbRow) : List DbRow :=
  table.filter (fun r => !missingF r.state_abbr && missingF r.metro_area)

/-- `SELECT DISTINCT zip_code FROM housing_stats` (geo-enrich line 126). -/
def zipsOf (table : List DbRow) : List String := (table.map DbRow.zip_code).dedup

/-! ## geo-enrich.js lookup-map builders -/

structure GeoRec where
  state_abbr : String
  county_name : String
  deriving Repr, DecidableEq

/-- Building `zipGeo` from the ZIP-to-county CSV (geo-enrich lines 97-115):
column positions by exact header match, zero-pad the ZIP to 5, skip rows whose
padded ZIP is not of length 5, keep the first occurrence of each ZIP, suffix
the county with a literal string when non-empty. -/
def buildZipGeo (csv : CSVData) : List (String × GeoRec) :=
  let stateIdx := jsIndexOf csv.header "state_abbr"
  let zipIdx := jsIndexOf csv.header "zipcode"
  let countyIdx := jsIndexOf csv.header "county"
  csv.rows.foldl (fun m row =>
    if (padStart 5 (jsAt row zipIdx)).length ≠ 5 then m
    else if (m.lookup (padStart 5 (jsAt row zipIdx))).isSome then m
    else m ++ [(padStart 5 (jsAt row zipIdx), ⟨jsAt row stateIdx,
      if jsAt row countyIdx ≠ "" then jsAt row countyIdx ++ " County" else ""⟩)]) []

/-- The `zipcodes` npm supplement pass (geo-enrich lines 127-145): for each
distinct DB ZIP, insert a state-only record when the ZIP is absent from
`zipGeo`, or fill in the state when the stored record has an empty state.
`npm zip = some st` models `zipcodes.lookup(zip)` succeeding with
`lookup.state || <empty> = st`. -/
def npmSupplement (npm : String → Option String) (zips : List String)
    (m0 : List (String × GeoRec)) : List (String × GeoRec) :=
  zips.foldl (fun m zip =>
    match m.lookup zip with
    | none =>
      match npm zip with
      | some st => m ++ [(zip, ⟨st, ""⟩)]
      | none => m
    | some g =>
      if g.state_abbr = "" then
        match npm zip with
        | some st => if st ≠ "" then setA m zip ⟨st, g.county_name⟩ else m
        | none => m
      else m) m0

/-- Header tests of the CBSA phase (geo-enrich lines 160-162, 188-189). -/
def hasZipCol (h : String) : Bool := ciContains h "zip"

def hasCbsaCol (h : String) : Bool := ciContains h "cbsa"

def hasMetroNameCol (h : String) : Bool :=
  ciSeq h "metro" "name" || ciSeq h "cbsa" "title" || ciContains h "name"

def hasCbsaCodeCol (h : String) : Bool := ciSeq h "cbsa" "code" || ciContains h "code"

def hasTitleCol (h : String) : Bool := ciContains h "title" || ciContains h "name"

/-- `zipMetro` when the ZIP-CBSA CSV has a metro-name column
(geo-enrich lines 166-171). -/
def buildZipMetroDirect (zipCol metroCol : Int) (rows : List (List String)) :
    List (String × String) :=
  rows.foldl (fun m row =>
    if (padStart 5 (jsAt row zipCol)).length = 5 ∧ jsAt row metroCol ≠ "" then
      setA m (padStart 5 (jsAt row zipCol)) (jsAt row metroCol)
    else m) []

/-- `cbsaCodes` when only a CBSA-code column exists (geo-enrich lines 175-180). -/
def buildCbsaCodes (zipCol cbsaCol : Int) (rows : List (List String)) :
    List (String × String) :=
  rows.foldl (fun m row =>
    if (padStart 5 (jsAt row zipCol)).length = 5 ∧ jsAt row cbsaCol ≠ "" then
      setA m (padStart 5 (jsAt row zipCol)) (jsAt row cbsaCol)
    else m) []

/-- `nameMap` from the CBSA-names CSV (geo-enrich lines 187-193): no guards at
all on the inserted key. -/
def buildNameMap (codeCol titleCol : Int) (rows : List (List String)) :
    List (String × String) :=
  rows.foldl (fun m row => setA m (jsAt row codeCol) (jsAt row titleCol)) []

/-- Resolving `cbsaCodes` through `nameMap` into `zipMetro`
(geo-enrich lines 197-200). -/
def mergeCbsaNames (nameMap codes : List (String × String)) : List (String × String) :=
  codes.foldl (fun zm p =>
    match truthyS (nameMap.lookup p.2) with
    | some name => setA zm p.1 name
    | none => zm) []

/-! ## Metro-script lookup-map builders -/

def nberUrl : String := "https://data.nber.org/cbsa-csa-fips-county-crosswalk/cbsa2fipsxw.csv"

def countyMasterUrl : String :=
  "https://raw.githubusercontent.com/kjhealy/fips-codes/master/county_fips_master.csv"

def geoDataUrl : String :=
  "https://raw.githubusercontent.com/scpike/us-state-county-zip/master/geo-data.csv"

def zipCbsaUrl : String :=
  "https://raw.githubusercontent.com/mwkracht/zip_to_cbsa/master/zip_to_cbsa/data/zip_cbsa.csv"

def cbsaNamesUrl : String :=
  "https://raw.githubusercontent.com/mwkracht/zip_to_cbsa/master/zip_to_cbsa/data/cbsa.csv"

/-- `countyFipsToMetro` from the NBER crosswalk (metro script lines 83-107):
naive comma split, regex-found columns, state FIPS padded to 2 and county FIPS
to 3, keep rows whose concatenation has length 5 and whose CBSA title is
non-empty. -/
def buildCountyFipsToMetro (txt : String) : List (String × String) :=
  match splitOnChar '\n' (trimChars txt.data) with
  | [] => []
  | h :: rest =>
    let fipsCol := jsFindIdx (fun s =>
      ciContains s "fipscounty" || ciContains s "fipscode" || ciContains s "fips")
      (splitSimpleL h)
    let stateCol := jsFindIdx (fun s =>
      ciContains s "fipsstate" || ciContains s "statecode") (splitSimpleL h)
    let nameCol := jsFindIdx (fun s =>
      ciContains s "cbsatitle" || ciContains s "metroname" || ciSeq s "cbsa" "name")
      (splitSimpleL h)
    rest.foldl (fun m line =>
      if (padStart 2 (jsAt (splitSimpleL line) stateCol) ++
            padStart 3 (jsAt (splitSimpleL line) fipsCol)).length = 5 ∧
          jsAt (splitSimpleL line) nameCol ≠ "" ∧
          jsAt (splitSimpleL line) nameCol ≠ "\"\"" then
        setA m (padStart 2 (jsAt (splitSimpleL line) stateCol) ++
          padStart 3 (jsAt (splitSimpleL line) fipsCol)) (jsAt (splitSimpleL line) nameCol)
      else m) []

/-- `countyNameToFips` from the county FIPS master CSV (metro script
lines 134-174): quote-aware row parse, regex-found columns, two keys per row —
`STATE|county name` in full and with the longest of the `$`-anchored suffix
alternatives stripped. -/
def buildCountyNameToFips (txt : String) : List (String × String) :=
  match splitOnChar '\n' (trimChars txt.data) with
  | [] => []
  | h :: rest =>
    let fipsCol := jsFindIdx (fun s => jsToLower s == "fips") (parseRowL h)
    let nameCol := jsFindIdx (fun s => ciContains s "county_name" || ciContains s "name")
      (parseRowL h)
    let stateCol := jsFindIdx (fun s => ciContains s "state_abbr" || ciContains s "state")
      (parseRowL h)
    rest.foldl (fun m line =>
      if (padStart 5 (jsAt (parseRowL line) fipsCol)).length = 5 ∧
          jsToLower (jsAt (parseRowL line) nameCol) ≠ "" ∧
          jsToUpper (jsAt (parseRowL line) stateCol) ≠ "" then
        setA
          (setA m
            (jsToUpper (jsAt (parseRowL line) stateCol) ++ "|" ++
              jsToLower (jsAt (parseRowL line) nameCol))
            (padStart 5 (jsAt (parseRowL line) fipsCol)))
          (jsToUpper (jsAt (parseRowL line) stateCol) ++ "|" ++
            stripSuffix mapSuffixes (jsToLower (jsAt (parseRowL line) nameCol)))
          (padStart 5 (jsAt (parseRowL line) fipsCol))
      else m) []

/-! ## Per-row join logic -/

structure MetroUpdate where
  zip_code : String
  metro_area : String
  deriving Repr, DecidableEq

/-- The two-key county-FIPS lookup of the metro script (lines 200-205): first
`STATE|county`, then — when the first is falsy — `STATE|county` with the DB
suffix alternatives stripped. -/
def countyFipsLookup (cnf : List (String × String)) (state county : String) :
    Option String :=
  match truthyS (cnf.lookup (state ++ "|" ++ county)) with
  | some f => some f
  | none => truthyS (cnf.lookup (state ++ "|" ++ stripSuffix dbSuffixes county))

/-- One iteration of the matching loop of the metro script (lines 192-218):
skip when the state has no FIPS prefix or the lower-cased county is empty;
resolve the county FIPS by the two-key lookup; then resolve the metro title;
push an update exactly when both succeed. -/
def metroPerRow (cnf cfm : List (String × String)) (row : DbRow) : Option MetroUpdate :=
  let state := row.state_abbr.getD ""
  let county := jsToLower (row.county_name.getD "")
  match STATE_FIPS state with
  | none => none
  | some _ =>
    if county = "" then none
    else
      match countyFipsLookup cnf state county with
      | none => none
      | some f =>
        match truthyS (cfm.lookup f) with
        | some metro => some ⟨row.zip_code, metro⟩
        | none => none

/-- One step of an update-pushing loop: `if (x) updates.push(x)`. -/
def pushStep {α β : Type} (f : α → Option β) (acc : List β) (row : α) : List β :=
  match f row with
  | some u => acc ++ [u]
  | none => acc

/-- The matching loop of the metro script, pushing updates in order. -/
def buildMetroUpdates (cnf cfm : List (String × String)) (rows : List DbRow) :
    List MetroUpdate :=
  rows.foldl (pushStep (metroPerRow cnf cfm)) []

structure GeoUpdate where
  zip_code : String
  state_abbr : Option String
  county_name : Option String
  metro_area : Option String
  deriving Repr, DecidableEq

/-- One iteration of the update-building loop of geo-enrich (lines 225-251):
skip rows with neither a `zipGeo` nor a (truthy) `zipMetro` hit; fill each
field only when the DB value is missing and the candidate is non-empty; emit
the update when at least one field was filled. -/
def geoPerRow (zg : List (String × GeoRec)) (zm : List (String × String))
    (row : DbRow) : Option GeoUpdate :=
  let geo := zg.lookup row.zip_code
  let metro := truthyS (zm.lookup row.zip_code)
  if geo = none ∧ metro = none then none
  else
    let gs := (geo.map GeoRec.state_abbr).getD ""
    let gc := (geo.map GeoRec.county_name).getD ""
    let hasS := missingF row.state_abbr && gs != ""
    let hasC := missingF row.county_name && gc != ""
    let hasM := missingF row.metro_area && metro.isSome
    if hasS || hasC || hasM then
      some ⟨row.zip_code,
        if hasS then some gs else none,
        if hasC then some gc else none,
        if hasM then metro else none⟩
    else none

/-- The update-building loop of geo-enrich, pushing updates in order. -/
def buildGeoUpdates (zg : List (String × GeoRec)) (zm : List (String × String))
    (rows : List DbRow) : List GeoUpdate :=
  rows.foldl (pushStep (geoPerRow zg zm)) []

/-- The row-level semantics of the batched geo-enrich UPDATE (lines 282-295):
`SET col = COALESCE(v.new_col, h.col)` for a `v` row matching on `zip_code`. -/
def applyGeoUpdate (u : GeoUpdate) (h : DbRow) : DbRow :=
  if h.zip_code = u.zip_code then
    { h with
      state_abbr := match u.state_abbr with | some s => some s | none => h.state_abbr
      county_name := match u.county_name with | some c => some c | none => h.county_name
      metro_area := match u.metro_area with | some m => some m | none => h.metro_area }
  else h

/-! ## Batching -/

/-- The batch loop `for (let i = 0; i < updates.length; i += BATCH_SIZE)` with
`updates.slice(i, i + BATCH_SIZE)`: consecutive chunks of size `bs` (the guard
against `bs = 0` only rules out the non-terminating degenerate loop). -/
def batches {α : Type} (bs : Nat) : List α → List (List α)
  | [] => []
  | x :: xs =>
    if bs = 0 then []
    else (x :: xs).take bs :: batches bs ((x :: xs).drop bs)
termination_by l => l.length
decreasing_by
  rename_i h
  simp only [List.length_drop, List.length_cons]
  omega

/-! ## Effect traces -/

inductive Eff where
  | queryEff (name : String) (ok : Bool)
  | downloadEff (url : String) (ok : Bool)
  | logMsg (msg : String)
  | printGeoSamples (us : List GeoUpdate)
  | printMetroSamples (us : List MetroUpdate)
  | updGeo (batch : List GeoUpdate) (ok : Bool)
  | updMetro (batch : List MetroUpdate) (ok : Bool)
  | poolEnd
  | exitOne
  deriving Repr, DecidableEq

/-- Environment of one run of `api/geo-enrich.js`: the DB table, the outcome of
every query (`some msg` = the query threw), the outcome of each download, the
`zipcodes` npm dataset, and the per-batch outcome of the UPDATE statements. -/
structure GeoEnv where
  dryRun : Bool
  batchSize : Nat
  table : List DbRow
  gapsQ : Option String
  geoDL : Except String String
  allZipsQ : Option String
  npm : String → Option String
  cbsaDL : Except String String
  namesDL : Except String String
  dbZipsQ : Option String
  updQ : Nat → Option String
  afterQ : Option String

/-- Step 2 of geo-enrich (lines 92-119): the effects of downloading the
ZIP-to-county CSV — a failure is caught and logged. -/
def geoDlTrace (env : GeoEnv) : List Eff :=
  match env.geoDL with
  | .ok _ => [Eff.downloadEff geoDataUrl true]
  | .error m => [Eff.downloadEff geoDataUrl false, Eff.logMsg ("Download failed: " ++ m)]

/-- Step 4 of geo-enrich (lines 149-211): download the ZIP-CBSA CSV, pick the
columns, either build `zipMetro` directly, or download the CBSA-names CSV and
resolve codes to names, or fall through with an empty map; a failed download is
caught and logged. Returns the effects of the phase and the resulting map. -/
def cbsaPhase (env : GeoEnv) : List Eff × List (String × String) :=
  match env.cbsaDL with
  | .error m =>
    ([Eff.downloadEff zipCbsaUrl false, Eff.logMsg ("CBSA download failed: " ++ m)], [])
  | .ok txt =>
    if 0 ≤ jsFindIdx hasMetroNameCol (parseCSV txt).header then
      ([Eff.downloadEff zipCbsaUrl true],
       buildZipMetroDirect (jsFindIdx hasZipCol (parseCSV txt).header)
         (jsFindIdx hasMetroNameCol (parseCSV txt).header) (parseCSV txt).rows)
    else if 0 ≤ jsFindIdx hasCbsaCol (parseCSV txt).header then
      match env.namesDL with
      | .error m =>
        ([Eff.downloadEff zipCbsaUrl true, Eff.downloadEff cbsaNamesUrl false,
          Eff.logMsg ("CBSA names download failed: " ++ m)], [])
      | .ok ntxt =>
        if 0 ≤ jsFindIdx hasCbsaCodeCol (parseCSV ntxt).header ∧
            0 ≤ jsFindIdx hasTitleCol (parseCSV ntxt).header then
          ([Eff.downloadEff zipCbsaUrl true, Eff.downloadEff cbsaNamesUrl true],
           mergeCbsaNames
             (buildNameMap (jsFindIdx hasCbsaCodeCol (parseCSV ntxt).header)
               (jsFindIdx hasTitleCol (parseCSV ntxt).header) (parseCSV ntxt).rows)
             (buildCbsaCodes (jsFindIdx hasZipCol (parseCSV txt).header)
               (jsFindIdx hasCbsaCol (parseCSV txt).header) (parseCSV txt).rows))
        else ([Eff.downloadEff zipCbsaUrl true, Eff.downloadEff cbsaNamesUrl true], [])
    else ([Eff.downloadEff zipCbsaUrl true], [])

/-- The `zipGeo` map of a run: the CSV-built map (empty on download failure)
supplemented from the npm dataset over the distinct DB ZIPs. -/
def geoZgOf (env : GeoEnv) : List (String × GeoRec) :=
  npmSupplement env.npm (zipsOf env.table)
    (match env.geoDL with
     | .ok txt => buildZipGeo (parseCSV txt)
     | .error _ => [])

/-- The update list of a geo-enrich run (lines 222-251). -/
def geoUpdatesOf (env : GeoEnv) : List GeoUpdate :=
  buildGeoUpdates (geoZgOf env) (cbsaPhase env).2 (geoSelect env.table)

/-- The batch loop of geo-enrich (lines 274-300): one parameterized UPDATE per
slice; a thrown query error escapes `main`. -/
def runGeoBatches (updQ : Nat → Option String) :
    Nat → List (List GeoUpdate) → List Eff × Option String
  | _, [] => ([], none)
  | i, b :: bl =>
    match updQ i with
    | some m => ([Eff.updGeo b false], some m)
    | none =>
      let r := runGeoBatches updQ (i + 1) bl
      (Eff.updGeo b true :: r.1, r.2)

/-- `main` of `api/geo-enrich.js` as a trace function: the effect list and, when
an error escapes `main`, its message. -/
def geoMain (env : GeoEnv) : List Eff × Option String :=
  match env.gapsQ with
  | some m => ([Eff.queryEff "gaps" false], some m)
  | none =>
    match env.allZipsQ with
    | some m =>
      ([Eff.queryEff "gaps" true] ++ geoDlTrace env ++ [Eff.queryEff "allZips" false], some m)
    | none =>
      match env.dbZipsQ with
      | some m =>
        ([Eff.queryEff "gaps" true] ++ geoDlTrace env ++ [Eff.queryEff "allZips" true] ++
          (cbsaPhase env).1 ++ [Eff.queryEff "dbZips" false], some m)
      | none =>
        let pre := [Eff.queryEff "gaps" true] ++ geoDlTrace env ++
          [Eff.queryEff "allZips" true] ++ (cbsaPhase env).1 ++ [Eff.queryEff "dbZips" true]
        if env.dryRun then
          (pre ++ [Eff.printGeoSamples ((geoUpdatesOf env).take 15), Eff.poolEnd], none)
        else
          match (runGeoBatches env.updQ 0 (batches env.batchSize (geoUpdatesOf env))).2 with
          | some m =>
            (pre ++ (runGeoBatches env.updQ 0 (batches env.batchSize (geoUpdatesOf env))).1,
             some m)
          | none =>
            match env.afterQ with
            | some m =>
              (pre ++ (runGeoBatches env.updQ 0 (batches env.batchSize (geoUpdatesOf env))).1 ++
                [Eff.queryEff "after" false], some m)
            | none =>
              (pre ++ (runGeoBatches env.updQ 0 (batches env.batchSize (geoUpdatesOf env))).1 ++
                [Eff.queryEff "after" true, Eff.poolEnd], none)

/-- `main().catch(e => { console.error(<Fatal>, e); process.exit(1); })`. -/
def geoTop (env : GeoEnv) : List Eff :=
  match geoMain env with
  | (t, none) => t
  | (t, some m) => t ++ [Eff.logMsg ("Fatal: " ++ m), Eff.exitOne]

/-- Environment of one run of the metro script. -/
structure MetroEnv where
  dryRun : Bool
  table : List DbRow
  countiesQ : Option String
  nberDL : Except String String
  countyDL : Except String String
  zipsQ : Option String
  updQ : Nat → Option String
  afterQ : Option String

/-- `countyFipsToMetro` of a run: built from the NBER crosswalk on success;
empty on download failure (the fallback branch downloads the county FIPS master
but never parses it into the map — see lines 111-120 of the metro script). -/
def metroCfmOf (env : MetroEnv) : List (String × String) :=
  match env.nberDL with
  | .ok txt => buildCountyFipsToMetro txt
  | .error _ => []

/-- `countyNameToFips` of a run (empty on download failure). -/
def metroCnfOf (env : MetroEnv) : List (String × String) :=
  match env.countyDL with
  | .ok txt => buildCountyNameToFips txt
  | .error _ => []

/-- The update list of a metro run (lines 181-218). -/
def metroUpdatesOf (env : MetroEnv) : List MetroUpdate :=
  buildMetroUpdates (metroCnfOf env) (metroCfmOf env) (metroSelect env.table)

/-- The batch loop of the metro script (lines 237-253). -/
def runMetroBatches (updQ : Nat → Option String) :
    Nat → List (List MetroUpdate) → List Eff × Option String
  | _, [] => ([], none)
  | i, b :: bl =>
    match updQ i with
    | some m => ([Eff.updMetro b false], some m)
    | none =>
      let r := runMetroBatches updQ (i + 1) bl
      (Eff.updMetro b true :: r.1, r.2)

def abortMsg : String := "No CBSA data available. Aborting metro enrichment."

/-- Step 2 of the metro script (lines 82-121): the effects of the NBER
download; on failure the error is logged and a fallback download of the county
FIPS master is attempted (its outcome at most logged, its rows never parsed
into the map). -/
def nberTrace (env : MetroEnv) : List Eff :=
  match env.nberDL with
  | .ok _ => [Eff.downloadEff nberUrl true]
  | .error m =>
    [Eff.downloadEff nberUrl false, Eff.logMsg ("NBER download failed: " ++ m)] ++
    (match env.countyDL with
     | .ok _ => [Eff.downloadEff countyMasterUrl true]
     | .error m2 =>
       [Eff.downloadEff countyMasterUrl false, Eff.logMsg ("Fallback also failed: " ++ m2)])

/-- Step 3 of the metro script (lines 129-177): the effects of the county FIPS
master download — a failure is caught and logged. -/
def countyTrace (env : MetroEnv) : List Eff :=
  match env.countyDL with
  | .ok _ => [Eff.downloadEff countyMasterUrl true]
  | .error m =>
    [Eff.downloadEff countyMasterUrl false, Eff.logMsg ("County FIPS download failed: " ++ m)]

/-- `main` of the metro script as a trace function. -/
def metroMain (env : MetroEnv) : List Eff × Option String :=
  match env.countiesQ with
  | some m => ([Eff.queryEff "counties" false], some m)
  | none =>
    if metroCfmOf env = [] then
      ([Eff.queryEff "counties" true] ++ nberTrace env ++ [Eff.logMsg abortMsg, Eff.poolEnd],
       none)
    else
      match env.zipsQ with
      | some m =>
        ([Eff.queryEff "counties" true] ++ nberTrace env ++ countyTrace env ++
          [Eff.queryEff "zips" false], some m)
      | none =>
        let pre := [Eff.queryEff "counties" true] ++ nberTrace env ++ countyTrace env ++
          [Eff.queryEff "zips" true]
        if env.dryRun then
          (pre ++ [Eff.printMetroSamples ((metroUpdatesOf env).take 15), Eff.poolEnd], none)
        else
          match (runMetroBatches env.updQ 0 (batches 500 (metroUpdatesOf env))).2 with
          | some m =>
            (pre ++ (runMetroBatches env.updQ 0 (batches 500 (metroUpdatesOf env))).1, some m)
          | none =>
            match env.afterQ with
            | some m =>
              (pre ++ (runMetroBatches env.updQ 0 (batches 500 (metroUpdatesOf env))).1 ++
                [Eff.queryEff "after" false], some m)
            | none =>
              (pre ++ (runMetroBatches env.updQ 0 (batches 500 (metroUpdatesOf env))).1 ++
                [Eff.queryEff "after" true, Eff.poolEnd], none)

/-- The top-level catch of the metro script. -/
def metroTop (env : MetroEnv) : List Eff :=
  match metroMain env with
  | (t, none) => t
  | (t, some m) => t ++ [Eff.logMsg ("Fatal: " ++ m), Eff.exitOne]

/-! ## Trace observers -/

def isUpdE : Eff → Bool
  | .updGeo _ _ => true
  | .updMetro _ _ => true
  | _ => false

def isDlE : Eff → Bool
  | .downloadEff _ _ => true
  | _ => false

/-- The download URLs of a trace, in order. -/
def dlUrls (t : List Eff) : List String :=
  t.filterMap (fun e => match e with | .downloadEff u _ => some u | _ => none)

/-- The geo-update batches of a trace, in order. -/
def updGeoBatchesOf (t : List Eff) : List (List GeoUpdate) :=
  t.filterMap (fun e => match e with | .updGeo b _ => some b | _ => none)

/-- The metro-update batches of a trace, in order. -/
def updMetroBatchesOf (t : List Eff) : List (List MetroUpdate) :=
  t.filterMap (fun e => match e with | .updMetro b _ => some b | _ => none)

/-- `t` ends with the effect list `s`. -/
def EndsWith (t s : List Eff) : Prop := ∃ p, t = p ++ s

/-- Effects a download phase may produce: download attempts and log lines. -/
def isDlLog : Eff → Bool
  | .downloadEff _ _ => true
  | .logMsg _ => true
  | _ => false

/-- A digit-string test: what a textual ZIP code or FIPS code looks like. -/
def isDigitCode (s : String) : Bool := s.length != 0 && s.data.all Char.isDigit

/-! ## Concrete instances used by witnesses and counterexamples -/

def cnfW : List (String × String) := [("TX|travis", "48453")]

def cfmW : List (String × String) := [("48453", "Austin-Round Rock-Georgetown, TX")]

def rowW : DbRow := ⟨"78701", some "TX", some "Travis County", none⟩

def rowW2 : DbRow := ⟨"10001", some "CA", none, none⟩

def zgW : List (String × GeoRec) := [("10001", ⟨"NY", "New York County"⟩)]

def updW : GeoUpdate := ⟨"10001", none, some "New York County", none⟩

/-- A county FIPS master CSV with one data row (used against `countyNameToFips`). -/
def csvCountyMasterW : String := "fips,county_name,state_abbr\n48453,Travis County,TX"

/-- An NBER-shaped crosswalk CSV with one data row. -/
def nberCsvW : String := "statecode,countyfips,cbsatitle\n48,453,Austin"

/-- A fully successful dry-run environment for `geo-enrich.js`. -/
def geoEnvW : GeoEnv :=
  { dryRun := true, batchSize := 500, table := [], gapsQ := none,
    geoDL := Except.ok "", allZipsQ := none, npm := fun _ => none,
    cbsaDL := Except.ok "", namesDL := Except.ok "", dbZipsQ := none,
    updQ := fun _ => none, afterQ := none }

/-- The same environment in live mode. -/
def geoEnvLiveW : GeoEnv := { geoEnvW with dryRun := false }

/-- `geo-enrich.js` with a failing ZIP-to-county download. -/
def geoEnvDlFailW : GeoEnv := { geoEnvW with geoDL := Except.error "neterr" }

/-- `geo-enrich.js` with a failing first database query. -/
def geoEnvQFailW : GeoEnv := { geoEnvW with gapsQ := some "dbdown" }

/-- A fully successful dry-run environment for the metro script. -/
def metroEnvW : MetroEnv :=
  { dryRun := true, table := [], countiesQ := none, nberDL := Except.ok nberCsvW,
    countyDL := Except.ok "", zipsQ := none, updQ := fun _ => none, afterQ := none }

/-- The same environment in live mode. -/
def metroEnvLiveW : MetroEnv := { metroEnvW with dryRun := false }

/-- The metro script with a failing NBER download (the C5 counterexample run). -/
def envC5 : MetroEnv := { metroEnvW with dryRun := false, nberDL := Except.error "boom" }

/-! ## Lemmas: trimming -/

theorem head?_dropWhile_not (p : Char → Bool) :
    ∀ (l : List Char) (c : Char), (l.dropWhile p).head? = some c → p c = false := by
  intro l
  induction l with
  | nil => intro c h; simp [List.dropWhile] at h
  | cons a t ih =>
    intro c h
    rw [List.dropWhile_cons] at h
    by_cases hp : p a = true
    · rw [if_pos hp] at h; exact ih c h
    · rw [if_neg hp] at h
      simp only [List.head?_cons, Option.some.injEq] at h
      subst h
      simpa using hp

theorem mem_of_mem_dropWhile (p : Char → Bool) :
    ∀ (l : List Char) (x : Char), x ∈ l.dropWhile p → x ∈ l := by
  intro l
  induction l with
  | nil => intro x h; simp [List.dropWhile] at h
  | cons a t ih =>
    intro x h
    rw [List.dropWhile_cons] at h
    by_cases hp : p a = true
    · rw [if_pos hp] at h; exact List.mem_cons_of_mem a (ih x h)
    · rw [if_neg hp] at h; exact h

theorem getLast?_dropWhile (p : Char → Bool) :
    ∀ (l : List Char), l.dropWhile p ≠ [] → (l.dropWhile p).getLast? = l.getLast? := by
  intro l
  induction l with
  | nil => intro h; simp [List.dropWhile] at h
  | cons a t ih =>
    intro h
    rw [List.dropWhile_cons] at h ⊢
    by_cases hp : p a = true
    · rw [if_pos hp] at h ⊢
      have ht : t ≠ [] := by
        intro he
        subst he
        simp [List.dropWhile] at h
      obtain ⟨b, t2, rfl⟩ := List.exists_cons_of_ne_nil ht
      rw [List.getLast?_cons_cons]
      exact ih h
    · rw [if_neg hp]

theorem mem_trimChars {cs : List Char} {x : Char} (h : x ∈ trimChars cs) : x ∈ cs := by
  unfold trimChars at h
  rw [List.mem_reverse] at h
  have h2 := mem_of_mem_dropWhile _ _ _ h
  rw [List.mem_reverse] at h2
  exact mem_of_mem_dropWhile _ _ _ h2

theorem trimChars_trimmed (cs : List Char) : IsTrimmed (trimChars cs) := by
  constructor
  · intro c h
    unfold trimChars at h
    rw [List.head?_reverse] at h
    by_cases hne : List.dropWhile isWS (List.dropWhile isWS cs).reverse = []
    · rw [hne] at h; simp at h
    · rw [getLast?_dropWhile _ _ hne, List.getLast?_reverse] at h
      exact head?_dropWhile_not _ _ _ h
  · intro c h
    unfold trimChars at h
    rw [List.getLast?_reverse] at h
    exact head?_dropWhile_not _ _ _ h

/-! ## Lemmas: the CSV row parser -/

theorem parseRowAux_quote (rest : List Char) (inQ : Bool) (cur : List Char) :
    parseRowAux ('"' :: rest) inQ cur = parseRowAux rest (!inQ) cur := by
  rw [parseRowAux]
  simp

theorem parseRowAux_comma (rest : List Char) (cur : List Char) :
    parseRowAux (',' :: rest) false cur =
      trimChars cur.reverse :: parseRowAux rest false [] := by
  rw [parseRowAux]
  simp

theorem parseRowAux_comma_inQ (rest : List Char) (cur : List Char) :
    parseRowAux (',' :: rest) true cur = parseRowAux rest true (',' :: cur) := by
  rw [parseRowAux]
  simp

theorem parseRowAux_cr (rest : List Char) (inQ : Bool) (cur : List Char) :
    parseRowAux ('\r' :: rest) inQ cur = parseRowAux rest inQ cur := by
  rw [parseRowAux]
  cases inQ <;> simp

theorem parseRowAux_other (c : Char) (rest : List Char) (inQ : Bool) (cur : List Char)
    (h1 : ¬ c = '"') (h2 : ¬ (c = ',' ∧ inQ = false)) (h3 : ¬ c = '\r') :
    parseRowAux (c :: rest) inQ cur = parseRowAux rest inQ (c :: cur) := by
  rw [parseRowAux]
  rw [if_neg h1, if_neg h2, if_neg h3]

theorem uqFrom_quote (q : Nat) (rest : List Char) :
    uqFrom q ('"' :: rest) = uqFrom (q + 1) rest := by
  rw [uqFrom]
  simp

theorem uqFrom_comma_even {q : Nat} (rest : List Char) (h : q % 2 = 0) :
    uqFrom q (',' :: rest) = uqFrom q rest + 1 := by
  rw [uqFrom]
  simp [h]

theorem uqFrom_other {c : Char} {q : Nat} (rest : List Char)
    (h1 : ¬ c = '"') (h2 : ¬ (c = ',' ∧ q % 2 = 0)) :
    uqFrom q (c :: rest) = uqFrom q rest := by
  rw [uqFrom]
  rw [if_neg h1, if_neg h2]

theorem parseRowAux_length :
    ∀ (cs : List Char) (q : Nat) (cur : List Char),
      (parseRowAux cs (decide (q % 2 = 1)) cur).length = 1 + uqFrom q cs := by
  intro cs
  induction cs with
  | nil => intro q cur; simp [parseRowAux, uqFrom]
  | cons c rest ih =>
    intro q cur
    by_cases h1 : c = '"'
    · subst h1
      rw [parseRowAux_quote, uqFrom_quote]
      have hflip : (!decide (q % 2 = 1)) = decide ((q + 1) % 2 = 1) := by
        rcases Nat.mod_two_eq_zero_or_one q with h | h
        · have h2 : (q + 1) % 2 = 1 := by omega
          have h3 : ¬ q % 2 = 1 := by omega
          simp [h2, h3]
        · have h2 : ¬ (q + 1) % 2 = 1 := by omega
          simp [h, h2]
      rw [hflip]
      exact ih (q + 1) cur
    · by_cases h2 : c = ','
      · subst h2
        rcases Nat.mod_two_eq_zero_or_one q with h | h
        · have hb : decide (q % 2 = 1) = false := by simp; omega
          rw [hb, parseRowAux_comma, uqFrom_comma_even rest h, List.length_cons]
          have := ih q []
          rw [hb] at this
          omega
        · have hb : decide (q % 2 = 1) = true := by simp [h]
          rw [hb, parseRowAux_comma_inQ]
          rw [uqFrom_other rest h1 (by simp [h])]
          have := ih q (',' :: cur)
          rw [hb] at this
          exact this
      · by_cases h3 : c = '\r'
        · subst h3
          rw [parseRowAux_cr, uqFrom_other rest h1 (by simp [h2])]
          exact ih q cur
        · rw [parseRowAux_other c rest _ cur h1 (by simp [h2]) h3,
            uqFrom_other rest h1 (by simp [h2])]
          exact ih q (c :: cur)

theorem parseRow_length (line : String) :
    (parseRow line).length = 1 + unquotedCommas line.data := by
  unfold parseRow parseRowL unquotedCommas
  rw [List.length_map]
  have h := parseRowAux_length line.data 0 []
  simpa using h

theorem uqFrom_eq_pos :
    ∀ (cs : List Char) (q0 : Nat),
      uqFrom q0 cs =
        ((List.range cs.length).filter (fun i =>
          cs.getD i ' ' == ',' && (q0 + (cs.take i).count '"') % 2 == 0)).length := by
  intro cs
  induction cs with
  | nil => intro q0; simp [uqFrom]
  | cons c rest ih =>
    intro q0
    have hmap :
        ((List.range rest.length).map Nat.succ).filter (fun i =>
            (c :: rest).getD i ' ' == ',' && (q0 + ((c :: rest).take i).count '"') % 2 == 0)
          = ((List.range rest.length).filter (fun i =>
              rest.getD i ' ' == ',' &&
                ((q0 + (if c = '"' then 1 else 0)) + (rest.take i).count '"') % 2 == 0)).map
              Nat.succ := by
      rw [List.filter_map]
      have hcong :
          ∀ i ∈ List.range rest.length,
            ((fun i => (c :: rest).getD i ' ' == ',' &&
                (q0 + ((c :: rest).take i).count '"') % 2 == 0) ∘ Nat.succ) i
              = (fun i => rest.getD i ' ' == ',' &&
                  ((q0 + (if c = '"' then 1 else 0)) + (rest.take i).count '"') % 2 == 0) i := by
        intro i _
        simp only [Function.comp_apply, Nat.succ_eq_add_one, List.getD_cons_succ,
          List.take_succ_cons, List.count_cons, beq_iff_eq]
        have harith : q0 + ((rest.take i).count '"' + if c = '"' then 1 else 0)
            = (q0 + (if c = '"' then 1 else 0)) + (rest.take i).count '"' := by omega
        rw [harith]
      rw [List.filter_congr hcong]
    rw [List.length_cons, List.range_succ_eq_map, List.filter_cons, hmap]
    by_cases h1 : c = '"'
    · subst h1
      rw [uqFrom_quote, ih (q0 + 1)]
      simp
    · by_cases h2 : c = ','
      · subst h2
        rcases Nat.mod_two_eq_zero_or_one q0 with h | h
        · rw [uqFrom_comma_even rest h, ih q0]
          simp [h]
        · rw [uqFrom_other rest h1 (by simp [h]), ih q0]
          simp [h]
      · have hne : (c == ',') = false := by
          rw [beq_eq_false_iff_ne]
          exact h2
        rw [uqFrom_other rest h1 (by simp [h2]), ih q0]
        simp [hne, h1]

theorem unquotedCommas_eq_pos (cs : List Char) :
    unquotedCommas cs = unquotedCommasPos cs := by
  unfold unquotedCommas unquotedCommasPos
  rw [uqFrom_eq_pos]
  congr 1
  apply List.filter_congr
  intro i _
  simp

theorem parseRowAux_fields :
    ∀ (cs : List Char) (inQ : Bool) (cur : List Char),
      '"' ∉ cur → '\r' ∉ cur →
      ∀ f ∈ parseRowAux cs inQ cur, '"' ∉ f ∧ '\r' ∉ f ∧ IsTrimmed f := by
  intro cs
  induction cs with
  | nil =>
    intro inQ cur hq hr f hf
    rw [parseRowAux] at hf
    simp only [List.mem_singleton] at hf
    subst hf
    refine ⟨fun h => hq ?_, fun h => hr ?_, trimChars_trimmed _⟩
    · exact List.mem_reverse.mp (mem_trimChars h)
    · exact List.mem_reverse.mp (mem_trimChars h)
  | cons c rest ih =>
    intro inQ cur hq hr f hf
    by_cases h1 : c = '"'
    · subst h1
      rw [parseRowAux_quote] at hf
      exact ih (!inQ) cur hq hr f hf
    · by_cases h2 : c = ',' ∧ inQ = false
      · obtain ⟨h2c, h2q⟩ := h2
        subst h2c
        subst h2q
        rw [parseRowAux_comma] at hf
        rcases List.mem_cons.mp hf with hf | hf
        · subst hf
          refine ⟨fun h => hq ?_, fun h => hr ?_, trimChars_trimmed _⟩
          · exact List.mem_reverse.mp (mem_trimChars h)
          · exact List.mem_reverse.mp (mem_trimChars h)
        · exact ih false [] (by simp) (by simp) f hf
      · by_cases h3 : c = '\r'
        · subst h3
          rw [parseRowAux_cr] at hf
          exact ih inQ cur hq hr f hf
        · rw [parseRowAux_other c rest inQ cur h1 h2 h3] at hf
          refine ih inQ (c :: cur) ?_ ?_ f hf
          · intro h
            rcases List.mem_cons.mp h with h | h
            · exact h1 h.symm
            · exact hq h
          · intro h
            rcases List.mem_cons.mp h with h | h
            · exact h3 h.symm
            · exact hr h

/-! ## Lemmas: loops and maps -/

theorem foldl_push_eq_filterMap {α β : Type} (f : α → Option β) :
    ∀ (rows : List α) (acc : List β),
      rows.foldl (pushStep f) acc = acc ++ rows.filterMap f := by
  intro rows
  induction rows with
  | nil => intro acc; simp
  | cons r t ih =>
    intro acc
    rw [List.foldl_cons, List.filterMap_cons]
    cases hf : f r with
    | none =>
      simp only [pushStep, hf]
      exact ih acc
    | some u =>
      simp only [pushStep, hf]
      rw [ih]
      simp

theorem buildGeoUpdates_eq (zg : List (String × GeoRec)) (zm : List (String × String))
    (rows : List DbRow) :
    buildGeoUpdates zg zm rows = rows.filterMap (geoPerRow zg zm) := by
  unfold buildGeoUpdates
  have h := foldl_push_eq_filterMap (geoPerRow zg zm) rows []
  simpa using h

theorem buildMetroUpdates_eq (cnf cfm : List (String × String)) (rows : List DbRow) :
    buildMetroUpdates cnf cfm rows = rows.filterMap (metroPerRow cnf cfm) := by
  unfold buildMetroUpdates
  have h := foldl_push_eq_filterMap (metroPerRow cnf cfm) rows []
  simpa using h

theorem keysOf_append {β : Type} (a b : List (String × β)) :
    keysOf (a ++ b) = keysOf a ++ keysOf b := by
  simp [keysOf]

theorem mem_keysOf_setA {β : Type} {m : List (String × β)} {k key : String} {v : β}
    (h : k ∈ keysOf (setA m key v)) : k = key ∨ k ∈ keysOf m := by
  unfold setA at h
  by_cases hmem : (m.lookup key).isSome = true
  · rw [if_pos hmem] at h
    unfold keysOf at h ⊢
    rw [List.map_map] at h
    rcases List.mem_map.mp h with ⟨p, hp, he⟩
    by_cases hk : p.1 = key
    · left
      rw [← he]
      simp [hk]
    · right
      rw [← he]
      simp only [Function.comp_apply, if_neg hk]
      exact List.mem_map.mpr ⟨p, hp, rfl⟩
  · rw [if_neg hmem] at h
    rw [keysOf_append] at h
    rcases List.mem_append.mp h with h | h
    · right; exact h
    · left; simpa [keysOf] using h

theorem foldl_keys_invariant {β ρ : Type} (P : String → Prop)
    (step : List (String × β) → ρ → List (String × β)) :
    ∀ (rows : List ρ),
      (∀ m r, r ∈ rows → (∀ k ∈ keysOf m, P k) → ∀ k ∈ keysOf (step m r), P k) →
      ∀ m, (∀ k ∈ keysOf m, P k) → ∀ k ∈ keysOf (rows.foldl step m), P k := by
  intro rows
  induction rows with
  | nil =>
    intro _ m hm k hk
    simpa using hm k hk
  | cons r t ih =>
    intro hstep m hm k hk
    rw [List.foldl_cons] at hk
    exact ih (fun m2 r2 hr2 => hstep m2 r2 (List.mem_cons_of_mem r hr2)) (step m r)
      (hstep m r (List.mem_cons_self r t) hm) k hk

theorem jsToLower_ne_empty {s : String} (h : s ≠ "") : jsToLower s ≠ "" := by
  intro he
  apply h
  have hd : (s.data.map Char.toLower) = [] := by
    simpa [jsToLower] using congrArg String.data he
  exact String.ext (by simpa using List.map_eq_nil_iff.mp hd)

/-! ## Claim theorems -/

/-- C9: the CSV row parser is quote-aware and total: the number of fields is one
plus the number of unquoted commas (commas preceded by an even number of double
quotes — `unquotedCommasPos` is the positional form of that count), so there is
always at least one field; double quotes and carriage returns never appear in an
output field; and every output field is whitespace-trimmed. -/
theorem claim_C9_parse_row (line : String) :
    (parseRow line).length = 1 + unquotedCommas line.data ∧
    unquotedCommas line.data = unquotedCommasPos line.data ∧
    1 ≤ (parseRow line).length ∧
    ∀ f ∈ parseRow line, '"' ∉ f.data ∧ '\r' ∉ f.data ∧ IsTrimmed f.data := by
  refine ⟨parseRow_length line, unquotedCommas_eq_pos line.data, ?_, ?_⟩
  · rw [parseRow_length line]
    omega
  · intro f hf
    unfold parseRow parseRowL at hf
    rcases List.mem_map.mp hf with ⟨cs, hcs, rfl⟩
    have h := parseRowAux_fields line.data false [] (by simp) (by simp) cs hcs
    simpa using h

/-- Witness for C9 at a concrete line with a quoted comma and padding spaces. -/
theorem claim_C9_witness :
    "b,c" ∈ parseRow "a,\"b,c\" , d" ∧
    '"' ∉ "b,c".data ∧ '\r' ∉ "b,c".data ∧ IsTrimmed "b,c".data :=
  ⟨by decide, (claim_C9_parse_row "a,\"b,c\" , d").2.2.2 "b,c" (by decide)⟩

/-- C1: for a database row with non-empty `state_abbr` and `county_name` and a
missing `metro_area`, the metro script (a) selects the row, (b) pushes the
update computed for the row into the update list, (c) emits an update with the
ZIP of the row if and only if the chain succeeds — the state abbreviation is in the
STATE_FIPS table, the county FIPS is found for the lower-cased county name, and
the county FIPS maps to a CBSA metro title — and (d) the county-FIPS lookup
tries the exact lower-cased name first and retries with the suffix alternatives
stripped. -/
theorem claim_C1_metro_chain (cnf cfm : List (String × String)) (table : List DbRow)
    (row : DbRow) (s c : String)
    (hmem : row ∈ table) (hs : row.state_abbr = some s) (hsne : s ≠ "")
    (hc : row.county_name = some c) (hcne : c ≠ "")
    (hm : missingF row.metro_area = true) :
    row ∈ metroSelect table ∧
    (∀ u, metroPerRow cnf cfm row = some u →
      u ∈ buildMetroUpdates cnf cfm (metroSelect table)) ∧
    (∀ m, metroPerRow cnf cfm row = some ⟨row.zip_code, m⟩ ↔
      ((STATE_FIPS s).isSome = true ∧
        ∃ f, countyFipsLookup cnf s (jsToLower c) = some f ∧
          truthyS (cfm.lookup f) = some m)) ∧
    (∀ f, countyFipsLookup cnf s (jsToLower c) = some f ↔
      (truthyS (cnf.lookup (s ++ "|" ++ jsToLower c)) = some f ∨
        (truthyS (cnf.lookup (s ++ "|" ++ jsToLower c)) = none ∧
          truthyS (cnf.lookup (s ++ "|" ++ stripSuffix dbSuffixes (jsToLower c))) = some f))) := by
  have hsel : row ∈ metroSelect table := by
    unfold metroSelect
    refine List.mem_filter.mpr ⟨hmem, ?_⟩
    rw [hs, hm]
    simp [missingF, hsne]
  refine ⟨hsel, ?_, ?_, ?_⟩
  · intro u hu
    rw [buildMetroUpdates_eq]
    exact List.mem_filterMap.mpr ⟨row, hsel, hu⟩
  · intro m
    have hlc : ¬ jsToLower c = "" := jsToLower_ne_empty hcne
    cases hsf : STATE_FIPS s with
    | none => simp [metroPerRow, hs, hc, hsf]
    | some sf =>
      cases hlf : countyFipsLookup cnf s (jsToLower c) with
      | none => simp [metroPerRow, hs, hc, hsf, hlf, hlc]
      | some f =>
        cases htr : truthyS (cfm.lookup f) with
        | none => simp [metroPerRow, hs, hc, hsf, hlf, htr, hlc]
        | some metro =>
          simp [metroPerRow, hs, hc, hsf, hlf, htr, hlc, MetroUpdate.mk.injEq, eq_comm]
  · intro f
    unfold countyFipsLookup
    cases h1 : truthyS (cnf.lookup (s ++ "|" ++ jsToLower c)) with
    | none => simp
    | some g => simp

/-- Witness for C1 at a Travis County, TX row against one-entry lookup maps. -/
theorem claim_C1_witness :
    rowW ∈ metroSelect [rowW] ∧
    (∀ u, metroPerRow cnfW cfmW rowW = some u →
      u ∈ buildMetroUpdates cnfW cfmW (metroSelect [rowW])) ∧
    (∀ m, metroPerRow cnfW cfmW rowW = some ⟨rowW.zip_code, m⟩ ↔
      ((STATE_FIPS "TX").isSome = true ∧
        ∃ f, countyFipsLookup cnfW "TX" (jsToLower "Travis County") = some f ∧
          truthyS (cfmW.lookup f) = some m)) ∧
    (∀ f, countyFipsLookup cnfW "TX" (jsToLower "Travis County") = some f ↔
      (truthyS (cnfW.lookup ("TX" ++ "|" ++ jsToLower "Travis County")) = some f ∨
        (truthyS (cnfW.lookup ("TX" ++ "|" ++ jsToLower "Travis County")) = none ∧
          truthyS (cnfW.lookup
            ("TX" ++ "|" ++ stripSuffix dbSuffixes (jsToLower "Travis County"))) = some f))) :=
  claim_C1_metro_chain cnfW cfmW [rowW] rowW "TX" "Travis County"
    (by decide) rfl (by decide) rfl (by decide) rfl

/-- C3: enrichment never overwrites a non-empty value: (a) `geoPerRow` fills a
field only when the DB value is null or empty; (b) the COALESCE in the batched
UPDATE leaves a column unchanged when the update field is null; (c) composing
the two, a present field survives the update untouched; (d) the metro script
only selects rows whose `metro_area` is null or empty. -/
theorem claim_C3_no_overwrite :
    (∀ zg zm row u, geoPerRow zg zm row = some u →
      (u.state_abbr ≠ none → missingF row.state_abbr = true) ∧
      (u.county_name ≠ none → missingF row.county_name = true) ∧
      (u.metro_area ≠ none → missingF row.metro_area = true)) ∧
    (∀ u hrow, (u.state_abbr = none → (applyGeoUpdate u hrow).state_abbr = hrow.state_abbr) ∧
      (u.county_name = none → (applyGeoUpdate u hrow).county_name = hrow.county_name) ∧
      (u.metro_area = none → (applyGeoUpdate u hrow).metro_area = hrow.metro_area)) ∧
    (∀ zg zm row u, geoPerRow zg zm row = some u →
      (missingF row.state_abbr = false → (applyGeoUpdate u row).state_abbr = row.state_abbr) ∧
      (missingF row.county_name = false → (applyGeoUpdate u row).county_name = row.county_name) ∧
      (missingF row.metro_area = false → (applyGeoUpdate u row).metro_area = row.metro_area)) ∧
    (∀ table r, r ∈ metroSelect table → missingF r.metro_area = true) := by
  have hA : ∀ (zg : List (String × GeoRec)) (zm : List (String × String)) row u,
      geoPerRow zg zm row = some u →
      (u.state_abbr ≠ none → missingF row.state_abbr = true) ∧
      (u.county_name ≠ none → missingF row.county_name = true) ∧
      (u.metro_area ≠ none → missingF row.metro_area = true) := by
    intro zg zm row u hu
    simp only [geoPerRow] at hu
    split_ifs at hu
    all_goals injection hu with hEq
    all_goals subst hEq
    all_goals refine ⟨?_, ?_, ?_⟩ <;> intro hne <;> simp_all
  have hB : ∀ (u : GeoUpdate) (hrow : DbRow),
      (u.state_abbr = none → (applyGeoUpdate u hrow).state_abbr = hrow.state_abbr) ∧
      (u.county_name = none → (applyGeoUpdate u hrow).county_name = hrow.county_name) ∧
      (u.metro_area = none → (applyGeoUpdate u hrow).metro_area = hrow.metro_area) := by
    intro u hrow
    unfold applyGeoUpdate
    by_cases hz : hrow.zip_code = u.zip_code
    · refine ⟨?_, ?_, ?_⟩ <;> intro h0 <;> simp [hz, h0]
    · refine ⟨?_, ?_, ?_⟩ <;> intro h0 <;> simp [hz]
  refine ⟨hA, hB, ?_, ?_⟩
  · intro zg zm row u hu
    obtain ⟨ha1, ha2, ha3⟩ := hA zg zm row u hu
    obtain ⟨hb1, hb2, hb3⟩ := hB u row
    refine ⟨?_, ?_, ?_⟩ <;> intro hmiss
    · by_cases hn : u.state_abbr = none
      · exact hb1 hn
      · rw [ha1 hn] at hmiss; exact absurd hmiss (by simp)
    · by_cases hn : u.county_name = none
      · exact hb2 hn
      · rw [ha2 hn] at hmiss; exact absurd hmiss (by simp)
    · by_cases hn : u.metro_area = none
      · exact hb3 hn
      · rw [ha3 hn] at hmiss; exact absurd hmiss (by simp)
  · intro table r hr
    unfold metroSelect at hr
    have h2 := (List.mem_filter.mp hr).2
    exact (Bool.and_eq_true_iff.mp h2).2

/-- Witness for C3: a row with a present state and missing county gets a
county-only update, and applying it leaves the state column unchanged. -/
theorem claim_C3_witness :
    (missingF rowW2.state_abbr = false →
      (applyGeoUpdate updW rowW2).state_abbr = rowW2.state_abbr) ∧
    (missingF rowW2.county_name = false →
      (applyGeoUpdate updW rowW2).county_name = rowW2.county_name) ∧
    (missingF rowW2.metro_area = false →
      (applyGeoUpdate updW rowW2).metro_area = rowW2.metro_area) :=
  claim_C3_no_overwrite.2.2.1 zgW [] rowW2 updW (by decide)

/-- C7 counterexample: `countyNameToFips` is not keyed by ZIP or FIPS codes —
on a one-row county FIPS master CSV it inserts the key `TX|travis county`,
which contains letters and a bar (so it is no digit code) and does not have
5 characters. -/
theorem claim_C7_counterexample :
    "TX|travis county" ∈ keysOf (buildCountyNameToFips csvCountyMasterW) ∧
    isDigitCode "TX|travis county" = false ∧
    ("TX|travis county").length ≠ 5 := by
  decide

/-- C7 (amended): the ZIP-keyed maps (`zipGeo` from the CSV, `zipMetro`,
`cbsaCodes`) and the FIPS-keyed map (`countyFipsToMetro`) only ever insert
keys of exactly 5 characters (the zero-padded ZIP or FIPS field of the source
row); the npm pass adds only ZIPs taken from the database; the merged
`zipMetro` keys come from `cbsaCodes`; but `countyNameToFips` is keyed by
composite `STATE|county name` strings with a non-empty state part. -/
theorem claim_C7_amended :
    (∀ csv k, k ∈ keysOf (buildZipGeo csv) → k.length = 5) ∧
    (∀ npm zips m0 k, k ∈ keysOf (npmSupplement npm zips m0) → k ∈ keysOf m0 ∨ k ∈ zips) ∧
    (∀ zc mc rows k, k ∈ keysOf (buildZipMetroDirect zc mc rows) → k.length = 5) ∧
    (∀ zc cc rows k, k ∈ keysOf (buildCbsaCodes zc cc rows) → k.length = 5) ∧
    (∀ nm codes k, k ∈ keysOf (mergeCbsaNames nm codes) → k ∈ keysOf codes) ∧
    (∀ txt k, k ∈ keysOf (buildCountyFipsToMetro txt) → k.length = 5) ∧
    (∀ txt k, k ∈ keysOf (buildCountyNameToFips txt) →
      ∃ st nm, st ≠ "" ∧ k = st ++ "|" ++ nm) := by
  refine ⟨?_, ?_, ?_, ?_, ?_, ?_, ?_⟩
  · intro csv k hk
    unfold buildZipGeo at hk
    refine foldl_keys_invariant (fun k => k.length = 5) _ csv.rows ?_ [] (by simp [keysOf]) k hk
    intro m r _ hm k2 hk2
    split_ifs at hk2 with h1 h2 h3
    · exact hm k2 hk2
    · exact hm k2 hk2
    · rw [keysOf_append] at hk2
      rcases List.mem_append.mp hk2 with h | h
      · exact hm k2 h
      · simp only [keysOf, List.map_cons, List.map_nil, List.mem_singleton] at h
        subst h
        exact of_not_not h1
    · rw [keysOf_append] at hk2
      rcases List.mem_append.mp hk2 with h | h
      · exact hm k2 h
      · simp only [keysOf, List.map_cons, List.map_nil, List.mem_singleton] at h
        subst h
        exact of_not_not h1
  · intro npm zips m0 k hk
    unfold npmSupplement at hk
    refine foldl_keys_invariant (fun k => k ∈ keysOf m0 ∨ k ∈ zips) _ zips ?_ m0
      (fun k2 hk2 => Or.inl hk2) k hk
    intro m zip hzip hm k2 hk2
    cases hl : m.lookup zip with
    | none =>
      simp only [hl] at hk2
      cases hn : npm zip with
      | none =>
        simp only [hn] at hk2
        exact hm k2 hk2
      | some st =>
        simp only [hn] at hk2
        rw [keysOf_append] at hk2
        rcases List.mem_append.mp hk2 with h | h
        · exact hm k2 h
        · simp only [keysOf, List.map_cons, List.map_nil, List.mem_singleton] at h
          subst h
          exact Or.inr hzip
    | some g =>
      simp only [hl] at hk2
      split_ifs at hk2 with hempty
      · cases hn : npm zip with
        | none =>
          simp only [hn] at hk2
          exact hm k2 hk2
        | some st =>
          simp only [hn] at hk2
          split_ifs at hk2 with hst
          · rcases mem_keysOf_setA hk2 with h | h
            · subst h
              exact Or.inr hzip
            · exact hm k2 h
          · exact hm k2 hk2
      · exact hm k2 hk2
  · intro zc mc rows k hk
    unfold buildZipMetroDirect at hk
    refine foldl_keys_invariant (fun k => k.length = 5) _ rows ?_ [] (by simp [keysOf]) k hk
    intro m r _ hm k2 hk2
    split_ifs at hk2 with hcond
    · rcases mem_keysOf_setA hk2 with h | h
      · subst h
        exact hcond.1
      · exact hm k2 h
    · exact hm k2 hk2
  · intro zc cc rows k hk
    unfold buildCbsaCodes at hk
    refine foldl_keys_invariant (fun k => k.length = 5) _ rows ?_ [] (by simp [keysOf]) k hk
    intro m r _ hm k2 hk2
    split_ifs at hk2 with hcond
    · rcases mem_keysOf_setA hk2 with h | h
      · subst h
        exact hcond.1
      · exact hm k2 h
    · exact hm k2 hk2
  · intro nm codes k hk
    unfold mergeCbsaNames at hk
    refine foldl_keys_invariant (fun k => k ∈ keysOf codes) _ codes ?_ [] (by simp [keysOf]) k hk
    intro m p hp hm k2 hk2
    cases ht : truthyS (nm.lookup p.2) with
    | none =>
      simp only [ht] at hk2
      exact hm k2 hk2
    | some name =>
      simp only [ht] at hk2
      rcases mem_keysOf_setA hk2 with h | h
      · subst h
        exact List.mem_map.mpr ⟨p, hp, rfl⟩
      · exact hm k2 h
  · intro txt k hk
    unfold buildCountyFipsToMetro at hk
    rcases hsplit : splitOnChar '\n' (trimChars txt.data) with _ | ⟨h, rest⟩
    · rw [hsplit] at hk
      simp [keysOf] at hk
    · rw [hsplit] at hk
      refine foldl_keys_invariant (fun k => k.length = 5) _ rest ?_ [] (by simp [keysOf]) k hk
      intro m line _ hm k2 hk2
      split_ifs at hk2 with hcond
      · rcases mem_keysOf_setA hk2 with hkey | hkey
        · subst hkey
          exact hcond.1
        · exact hm k2 hkey
      · exact hm k2 hk2
  · intro txt k hk
    unfold buildCountyNameToFips at hk
    rcases hsplit : splitOnChar '\n' (trimChars txt.data) with _ | ⟨h, rest⟩
    · rw [hsplit] at hk
      simp [keysOf] at hk
    · rw [hsplit] at hk
      refine foldl_keys_invariant (fun k => ∃ st nm, st ≠ "" ∧ k = st ++ "|" ++ nm) _ rest ?_ []
        (by simp [keysOf]) k hk
      intro m line _ hm k2 hk2
      split_ifs at hk2 with hcond
      · rcases mem_keysOf_setA hk2 with hkey | hkey
        · exact ⟨_, _, hcond.2.2, hkey⟩
        · rcases mem_keysOf_setA hkey with hkey2 | hkey2
          · exact ⟨_, _, hcond.2.2, hkey2⟩
          · exact hm k2 hkey2
      · exact hm k2 hk2

/-- Witness for C7 (amended) at the concrete county FIPS master CSV. -/
theorem claim_C7_witness :
    ∃ st nm, st ≠ "" ∧ "TX|travis" = st ++ "|" ++ nm :=
  claim_C7_amended.2.2.2.2.2.2 csvCountyMasterW "TX|travis" (by decide)

/-! ## Lemmas: traces -/

theorem dlUrls_append (a b : List Eff) : dlUrls (a ++ b) = dlUrls a ++ dlUrls b :=
  List.filterMap_append a b _

theorem updGeoBatchesOf_append (a b : List Eff) :
    updGeoBatchesOf (a ++ b) = updGeoBatchesOf a ++ updGeoBatchesOf b :=
  List.filterMap_append a b _

theorem updMetroBatchesOf_append (a b : List Eff) :
    updMetroBatchesOf (a ++ b) = updMetroBatchesOf a ++ updMetroBatchesOf b :=
  List.filterMap_append a b _

theorem not_mem_of_all_p {p : Eff → Bool} {t : List Eff} (h : t.all p = true) {e : Eff}
    (hp : p e = false) : e ∉ t := by
  intro he
  have h2 := List.all_eq_true.mp h e he
  rw [hp] at h2
  exact Bool.false_ne_true h2

theorem isUpdE_of_isDlLog {e : Eff} (h : isDlLog e = true) : isUpdE e = false := by
  cases e <;> simp [isDlLog, isUpdE] at *

theorem updGeoBatchesOf_of_clean {t : List Eff} (h : t.all isDlLog = true) :
    updGeoBatchesOf t = [] := by
  induction t with
  | nil => rfl
  | cons e t2 ih =>
    rw [List.all_cons, Bool.and_eq_true] at h
    have h2 := ih h.2
    have h1 := h.1
    cases e <;> simp [isDlLog] at h1 <;> simp [updGeoBatchesOf, List.filterMap_cons] at * <;>
      exact h2

theorem updMetroBatchesOf_of_clean {t : List Eff} (h : t.all isDlLog = true) :
    updMetroBatchesOf t = [] := by
  induction t with
  | nil => rfl
  | cons e t2 ih =>
    rw [List.all_cons, Bool.and_eq_true] at h
    have h2 := ih h.2
    have h1 := h.1
    cases e <;> simp [isDlLog] at h1 <;> simp [updMetroBatchesOf, List.filterMap_cons] at * <;>
      exact h2

theorem updGeoBatchesOf_map_true (bl : List (List GeoUpdate)) :
    updGeoBatchesOf (bl.map (fun b => Eff.updGeo b true)) = bl := by
  induction bl with
  | nil => rfl
  | cons b t ih =>
    simp only [List.map_cons, updGeoBatchesOf, List.filterMap_cons] at *
    rw [ih]

theorem updMetroBatchesOf_map_true (bl : List (List MetroUpdate)) :
    updMetroBatchesOf (bl.map (fun b => Eff.updMetro b true)) = bl := by
  induction bl with
  | nil => rfl
  | cons b t ih =>
    simp only [List.map_cons, updMetroBatchesOf, List.filterMap_cons] at *
    rw [ih]

theorem dlUrls_of_upd {t : List Eff} (h : ∀ e ∈ t, isUpdE e = true) : dlUrls t = [] := by
  induction t with
  | nil => rfl
  | cons e t2 ih =>
    have he := h e (List.mem_cons_self e t2)
    have h2 : ∀ e2 ∈ t2, isUpdE e2 = true := fun e2 he2 => h e2 (List.mem_cons_of_mem e he2)
    cases e with
    | updGeo b ok =>
      have hstep : dlUrls (Eff.updGeo b ok :: t2) = dlUrls t2 := by
        simp [dlUrls, List.filterMap_cons]
      rw [hstep]
      exact ih h2
    | updMetro b ok =>
      have hstep : dlUrls (Eff.updMetro b ok :: t2) = dlUrls t2 := by
        simp [dlUrls, List.filterMap_cons]
      rw [hstep]
      exact ih h2
    | queryEff q b => simp [isUpdE] at he
    | downloadEff u b => simp [isUpdE] at he
    | logMsg m => simp [isUpdE] at he
    | printGeoSamples us => simp [isUpdE] at he
    | printMetroSamples us => simp [isUpdE] at he
    | poolEnd => simp [isUpdE] at he
    | exitOne => simp [isUpdE] at he

/-! ## Lemmas: phase traces -/

theorem geoDlTrace_clean (env : GeoEnv) : (geoDlTrace env).all isDlLog = true := by
  unfold geoDlTrace
  cases env.geoDL <;> simp [isDlLog]

theorem geoDlTrace_dl (env : GeoEnv) : dlUrls (geoDlTrace env) = [geoDataUrl] := by
  unfold geoDlTrace
  cases env.geoDL <;> simp [dlUrls, List.filterMap_cons]

theorem geoDlTrace_log (env : GeoEnv) (m : String) (h : env.geoDL = Except.error m) :
    Eff.logMsg ("Download failed: " ++ m) ∈ geoDlTrace env := by
  unfold geoDlTrace
  rw [h]
  simp

theorem nberTrace_clean (env : MetroEnv) : (nberTrace env).all isDlLog = true := by
  unfold nberTrace
  cases env.nberDL <;> cases env.countyDL <;> simp [isDlLog]

theorem nberTrace_dl (env : MetroEnv) :
    List.Sublist (dlUrls (nberTrace env)) [nberUrl, countyMasterUrl] := by
  unfold nberTrace
  cases env.nberDL with
  | error m =>
    cases env.countyDL <;> simp [dlUrls, List.filterMap_cons]
  | ok txt =>
    simp [dlUrls, List.filterMap_cons]

theorem nberTrace_ok (env : MetroEnv) (txt : String) (h : env.nberDL = Except.ok txt) :
    nberTrace env = [Eff.downloadEff nberUrl true] := by
  unfold nberTrace
  rw [h]

theorem nberTrace_err (env : MetroEnv) (m : String) (h : env.nberDL = Except.error m) :
    Eff.logMsg ("NBER download failed: " ++ m) ∈ nberTrace env ∧
    (∃ ok, Eff.downloadEff countyMasterUrl ok ∈ nberTrace env) := by
  unfold nberTrace
  rw [h]
  cases hc : env.countyDL with
  | ok txt => exact ⟨by simp, true, by simp⟩
  | error m2 => exact ⟨by simp, false, by simp⟩

theorem countyTrace_clean (env : MetroEnv) : (countyTrace env).all isDlLog = true := by
  unfold countyTrace
  cases env.countyDL <;> simp [isDlLog]

theorem countyTrace_dl (env : MetroEnv) : dlUrls (countyTrace env) = [countyMasterUrl] := by
  unfold countyTrace
  cases env.countyDL <;> simp [dlUrls, List.filterMap_cons]

theorem nberDL_ok_of_cfm_ne (env : MetroEnv) (h : metroCfmOf env ≠ []) :
    ∃ txt, env.nberDL = Except.ok txt := by
  cases hnd : env.nberDL with
  | ok txt => exact ⟨txt, rfl⟩
  | error m =>
    exfalso
    apply h
    simp [metroCfmOf, hnd]

theorem cbsaPhase_clean (env : GeoEnv) : (cbsaPhase env).1.all isDlLog = true := by
  cases hdl : env.cbsaDL with
  | error m => simp [cbsaPhase, hdl, isDlLog]
  | ok txt =>
    by_cases h1 : 0 ≤ jsFindIdx hasMetroNameCol (parseCSV txt).header
    · simp [cbsaPhase, hdl, h1, isDlLog]
    · by_cases h2 : 0 ≤ jsFindIdx hasCbsaCol (parseCSV txt).header
      · cases hnm : env.namesDL with
        | error m => simp [cbsaPhase, hdl, h1, h2, hnm, isDlLog]
        | ok ntxt =>
          by_cases h3 : 0 ≤ jsFindIdx hasCbsaCodeCol (parseCSV ntxt).header ∧
              0 ≤ jsFindIdx hasTitleCol (parseCSV ntxt).header
          · simp [cbsaPhase, hdl, h1, h2, hnm, h3, isDlLog]
          · simp [cbsaPhase, hdl, h1, h2, hnm, h3, isDlLog]
      · simp [cbsaPhase, hdl, h1, h2, isDlLog]

theorem cbsaPhase_dl (env : GeoEnv) :
    List.Sublist (dlUrls (cbsaPhase env).1) [zipCbsaUrl, cbsaNamesUrl] := by
  cases hdl : env.cbsaDL with
  | error m =>
    simp [cbsaPhase, hdl, dlUrls, List.filterMap_cons]
  | ok txt =>
    by_cases h1 : 0 ≤ jsFindIdx hasMetroNameCol (parseCSV txt).header
    · simp [cbsaPhase, hdl, h1, dlUrls, List.filterMap_cons]
    · by_cases h2 : 0 ≤ jsFindIdx hasCbsaCol (parseCSV txt).header
      · cases hnm : env.namesDL with
        | error m =>
          simp [cbsaPhase, hdl, h1, h2, hnm, dlUrls, List.filterMap_cons]
        | ok ntxt =>
          by_cases h3 : 0 ≤ jsFindIdx hasCbsaCodeCol (parseCSV ntxt).header ∧
              0 ≤ jsFindIdx hasTitleCol (parseCSV ntxt).header
          · simp [cbsaPhase, hdl, h1, h2, hnm, h3, dlUrls, List.filterMap_cons]
          · simp [cbsaPhase, hdl, h1, h2, hnm, h3, dlUrls, List.filterMap_cons]
      · simp [cbsaPhase, hdl, h1, h2, dlUrls, List.filterMap_cons]

theorem cbsaPhase_log (env : GeoEnv) (m : String) (h : env.cbsaDL = Except.error m) :
    Eff.logMsg ("CBSA download failed: " ++ m) ∈ (cbsaPhase env).1 := by
  simp [cbsaPhase, h]

theorem cbsaPhase_names (env : GeoEnv)
    (h : cbsaNamesUrl ∈ dlUrls (cbsaPhase env).1) :
    ∃ txt, env.cbsaDL = Except.ok txt ∧
      ¬ 0 ≤ jsFindIdx hasMetroNameCol (parseCSV txt).header ∧
      0 ≤ jsFindIdx hasCbsaCol (parseCSV txt).header := by
  cases hdl : env.cbsaDL with
  | error m =>
    rw [show (cbsaPhase env).1 = [Eff.downloadEff zipCbsaUrl false,
      Eff.logMsg ("CBSA download failed: " ++ m)] from by simp [cbsaPhase, hdl]] at h
    simp [dlUrls, List.filterMap_cons] at h
    exact absurd h (by decide)
  | ok txt =>
    by_cases h1 : 0 ≤ jsFindIdx hasMetroNameCol (parseCSV txt).header
    · rw [show (cbsaPhase env).1 = [Eff.downloadEff zipCbsaUrl true] from by
        simp [cbsaPhase, hdl, h1]] at h
      simp [dlUrls, List.filterMap_cons] at h
      exact absurd h (by decide)
    · by_cases h2 : 0 ≤ jsFindIdx hasCbsaCol (parseCSV txt).header
      · exact ⟨txt, rfl, h1, h2⟩
      · rw [show (cbsaPhase env).1 = [Eff.downloadEff zipCbsaUrl true] from by
          simp [cbsaPhase, hdl, h1, h2]] at h
        simp [dlUrls, List.filterMap_cons] at h
        exact absurd h (by decide)

/-! ## Lemmas: the batch loops -/

theorem runGeoBatches_ok (updQ : Nat → Option String) (h : ∀ j, updQ j = none) :
    ∀ (bl : List (List GeoUpdate)) (i : Nat),
      runGeoBatches updQ i bl = (bl.map (fun b => Eff.updGeo b true), none) := by
  intro bl
  induction bl with
  | nil => intro i; rfl
  | cons b t ih =>
    intro i
    simp only [runGeoBatches, h i, ih (i + 1), List.map_cons]

theorem runGeoBatches_none (updQ : Nat → Option String) :
    ∀ (bl : List (List GeoUpdate)) (i : Nat),
      (runGeoBatches updQ i bl).2 = none →
      ∀ e ∈ (runGeoBatches updQ i bl).1, ∃ b2, e = Eff.updGeo b2 true := by
  intro bl
  induction bl with
  | nil => intro i _ e he; simp [runGeoBatches] at he
  | cons b t ih =>
    intro i hnone e he
    cases hq : updQ i with
    | some m =>
      simp only [runGeoBatches, hq] at hnone
      exact absurd hnone (by simp)
    | none =>
      simp only [runGeoBatches, hq] at hnone he
      rcases List.mem_cons.mp he with h2 | h2
      · exact ⟨b, h2⟩
      · exact ih (i + 1) hnone e h2

theorem runGeoBatches_err (updQ : Nat → Option String) :
    ∀ (bl : List (List GeoUpdate)) (i : Nat) (m : String),
      (runGeoBatches updQ i bl).2 = some m →
      ∃ t2 b0, (runGeoBatches updQ i bl).1 = t2 ++ [Eff.updGeo b0 false] ∧
        ∀ e ∈ t2, ∃ b2, e = Eff.updGeo b2 true := by
  intro bl
  induction bl with
  | nil => intro i m h; simp [runGeoBatches] at h
  | cons b t ih =>
    intro i m h
    cases hq : updQ i with
    | some m2 =>
      simp only [runGeoBatches, hq]
      exact ⟨[], b, rfl, by simp⟩
    | none =>
      simp only [runGeoBatches, hq] at h ⊢
      rcases ih (i + 1) m h with ⟨t2, b0, ht, hall⟩
      refine ⟨Eff.updGeo b true :: t2, b0, by simp [ht], ?_⟩
      intro e he
      rcases List.mem_cons.mp he with h2 | h2
      · exact ⟨b, h2⟩
      · exact hall e h2

theorem runGeoBatches_upd (updQ : Nat → Option String) (bl : List (List GeoUpdate)) (i : Nat) :
    ∀ e ∈ (runGeoBatches updQ i bl).1, isUpdE e = true := by
  intro e he
  cases hr : (runGeoBatches updQ i bl).2 with
  | none =>
    rcases runGeoBatches_none updQ bl i hr e he with ⟨b2, rfl⟩
    rfl
  | some m =>
    rcases runGeoBatches_err updQ bl i m hr with ⟨t2, b0, ht, hall⟩
    rw [ht] at he
    rcases List.mem_append.mp he with h2 | h2
    · rcases hall e h2 with ⟨b2, rfl⟩
      rfl
    · rcases List.mem_singleton.mp h2 with rfl
      rfl

theorem runMetroBatches_ok (updQ : Nat → Option String) (h : ∀ j, updQ j = none) :
    ∀ (bl : List (List MetroUpdate)) (i : Nat),
      runMetroBatches updQ i bl = (bl.map (fun b => Eff.updMetro b true), none) := by
  intro bl
  induction bl with
  | nil => intro i; rfl
  | cons b t ih =>
    intro i
    simp only [runMetroBatches, h i, ih (i + 1), List.map_cons]

theorem runMetroBatches_none (updQ : Nat → Option String) :
    ∀ (bl : List (List MetroUpdate)) (i : Nat),
      (runMetroBatches updQ i bl).2 = none →
      ∀ e ∈ (runMetroBatches updQ i bl).1, ∃ b2, e = Eff.updMetro b2 true := by
  intro bl
  induction bl with
  | nil => intro i _ e he; simp [runMetroBatches] at he
  | cons b t ih =>
    intro i hnone e he
    cases hq : updQ i with
    | some m =>
      simp only [runMetroBatches, hq] at hnone
      exact absurd hnone (by simp)
    | none =>
      simp only [runMetroBatches, hq] at hnone he
      rcases List.mem_cons.mp he with h2 | h2
      · exact ⟨b, h2⟩
      · exact ih (i + 1) hnone e h2

theorem runMetroBatches_err (updQ : Nat → Option String) :
    ∀ (bl : List (List MetroUpdate)) (i : Nat) (m : String),
      (runMetroBatches updQ i bl).2 = some m →
      ∃ t2 b0, (runMetroBatches updQ i bl).1 = t2 ++ [Eff.updMetro b0 false] ∧
        ∀ e ∈ t2, ∃ b2, e = Eff.updMetro b2 true := by
  intro bl
  induction bl with
  | nil => intro i m h; simp [runMetroBatches] at h
  | cons b t ih =>
    intro i m h
    cases hq : updQ i with
    | some m2 =>
      simp only [runMetroBatches, hq]
      exact ⟨[], b, rfl, by simp⟩
    | none =>
      simp only [runMetroBatches, hq] at h ⊢
      rcases ih (i + 1) m h with ⟨t2, b0, ht, hall⟩
      refine ⟨Eff.updMetro b true :: t2, b0, by simp [ht], ?_⟩
      intro e he
      rcases List.mem_cons.mp he with h2 | h2
      · exact ⟨b, h2⟩
      · exact hall e h2

theorem runMetroBatches_upd (updQ : Nat → Option String) (bl : List (List MetroUpdate))
    (i : Nat) : ∀ e ∈ (runMetroBatches updQ i bl).1, isUpdE e = true := by
  intro e he
  cases hr : (runMetroBatches updQ i bl).2 with
  | none =>
    rcases runMetroBatches_none updQ bl i hr e he with ⟨b2, rfl⟩
    rfl
  | some m =>
    rcases runMetroBatches_err updQ bl i m hr with ⟨t2, b0, ht, hall⟩
    rw [ht] at he
    rcases List.mem_append.mp he with h2 | h2
    · rcases hall e h2 with ⟨b2, rfl⟩
      rfl
    · rcases List.mem_singleton.mp h2 with rfl
      rfl

/-! ## Lemmas: chunking -/

theorem batches_flatten {α : Type} (bs : Nat) (h : 0 < bs) :
    ∀ l : List α, (batches bs l).flatten = l := by
  have haux : ∀ (n : Nat) (l : List α), l.length ≤ n → (batches bs l).flatten = l := by
    intro n
    induction n with
    | zero =>
      intro l hl
      have h0 : l = [] := List.eq_nil_of_length_eq_zero (Nat.le_zero.mp hl)
      subst h0
      simp [batches]
    | succ n ih =>
      intro l hl
      cases l with
      | nil => simp [batches]
      | cons x xs =>
        have hlen : ((x :: xs).drop bs).length ≤ n := by
          rw [List.length_drop]
          simp only [List.length_cons] at hl ⊢
          omega
        rw [batches, if_neg (Nat.pos_iff_ne_zero.mp h), List.flatten_cons, ih _ hlen]
        exact List.take_append_drop bs (x :: xs)
  intro l
  exact haux l.length l (le_refl _)

theorem batches_length_le {α : Type} (bs : Nat) :
    ∀ (l : List α) (b : List α), b ∈ batches bs l → b.length ≤ bs := by
  have haux : ∀ (n : Nat) (l : List α), l.length ≤ n →
      ∀ b ∈ batches bs l, b.length ≤ bs := by
    intro n
    induction n with
    | zero =>
      intro l hl b hb
      have h0 : l = [] := List.eq_nil_of_length_eq_zero (Nat.le_zero.mp hl)
      subst h0
      simp [batches] at hb
    | succ n ih =>
      intro n2 hl b hb
      cases n2 with
      | nil => simp [batches] at hb
      | cons x xs =>
        rw [batches] at hb
        by_cases hbs : bs = 0
        · rw [if_pos hbs] at hb
          simp at hb
        · rw [if_neg hbs] at hb
          rcases List.mem_cons.mp hb with h1 | h1
          · subst h1
            rw [List.length_take]
            exact min_le_left _ _
          · refine ih ((x :: xs).drop bs) ?_ b h1
            rw [List.length_drop]
            simp only [List.length_cons] at hl ⊢
            omega
  intro l
  exact haux l.length l (le_refl _)

/-! ## Small evaluation lemmas for the trace observers -/

@[simp]
theorem dlUrls_nil : dlUrls [] = [] := rfl

@[simp]
theorem dlUrls_cons (e : Eff) (t : List Eff) :
    dlUrls (e :: t) =
      (match e with | .downloadEff u _ => [u] | _ => []) ++ dlUrls t := by
  cases e <;> simp [dlUrls, List.filterMap_cons]

@[simp]
theorem updGeoBatchesOf_nil : updGeoBatchesOf [] = [] := rfl

@[simp]
theorem updGeoBatchesOf_cons (e : Eff) (t : List Eff) :
    updGeoBatchesOf (e :: t) =
      (match e with | .updGeo b _ => [b] | _ => []) ++ updGeoBatchesOf t := by
  cases e <;> simp [updGeoBatchesOf, List.filterMap_cons]

@[simp]
theorem updMetroBatchesOf_nil : updMetroBatchesOf [] = [] := rfl

@[simp]
theorem updMetroBatchesOf_cons (e : Eff) (t : List Eff) :
    updMetroBatchesOf (e :: t) =
      (match e with | .updMetro b _ => [b] | _ => []) ++ updMetroBatchesOf t := by
  cases e <;> simp [updMetroBatchesOf, List.filterMap_cons]

theorem metroPerRow_cfm_nil (cnf : List (String × String)) (row : DbRow) :
    metroPerRow cnf [] row = none := by
  unfold metroPerRow
  cases hsf : STATE_FIPS (row.state_abbr.getD "") with
  | none => simp [hsf]
  | some sf =>
    simp only [hsf]
    split_ifs with hc
    · rfl
    · cases hlf : countyFipsLookup cnf (row.state_abbr.getD "")
        (jsToLower (row.county_name.getD "")) with
      | none => simp [hlf]
      | some f => simp [hlf, truthyS]

theorem metroUpdatesOf_nil_of_cfm (env : MetroEnv) (h : metroCfmOf env = []) :
    metroUpdatesOf env = [] := by
  unfold metroUpdatesOf
  rw [h, buildMetroUpdates_eq]
  apply List.filterMap_eq_nil_iff.mpr
  intro row _
  exact metroPerRow_cfm_nil _ row

/-! ## Lemmas: the possible shapes of a full run -/

theorem geoTop_cases (env : GeoEnv) :
    (∃ m, env.gapsQ = some m ∧
      geoTop env = [Eff.queryEff "gaps" false, Eff.logMsg ("Fatal: " ++ m), Eff.exitOne]) ∨
    (env.gapsQ = none ∧ ∃ m, env.allZipsQ = some m ∧
      geoTop env = [Eff.queryEff "gaps" true] ++ geoDlTrace env ++
        [Eff.queryEff "allZips" false, Eff.logMsg ("Fatal: " ++ m), Eff.exitOne]) ∨
    (env.gapsQ = none ∧ env.allZipsQ = none ∧ ∃ m, env.dbZipsQ = some m ∧
      geoTop env = [Eff.queryEff "gaps" true] ++ geoDlTrace env ++
        [Eff.queryEff "allZips" true] ++ (cbsaPhase env).1 ++
        [Eff.queryEff "dbZips" false, Eff.logMsg ("Fatal: " ++ m), Eff.exitOne]) ∨
    (env.gapsQ = none ∧ env.allZipsQ = none ∧ env.dbZipsQ = none ∧ env.dryRun = true ∧
      geoTop env = [Eff.queryEff "gaps" true] ++ geoDlTrace env ++
        [Eff.queryEff "allZips" true] ++ (cbsaPhase env).1 ++ [Eff.queryEff "dbZips" true] ++
        [Eff.printGeoSamples ((geoUpdatesOf env).take 15), Eff.poolEnd]) ∨
    (env.gapsQ = none ∧ env.allZipsQ = none ∧ env.dbZipsQ = none ∧ env.dryRun = false ∧
      ((∃ m, (runGeoBatches env.updQ 0 (batches env.batchSize (geoUpdatesOf env))).2 = some m ∧
        geoTop env = [Eff.queryEff "gaps" true] ++ geoDlTrace env ++
          [Eff.queryEff "allZips" true] ++ (cbsaPhase env).1 ++ [Eff.queryEff "dbZips" true] ++
          (runGeoBatches env.updQ 0 (batches env.batchSize (geoUpdatesOf env))).1 ++
          [Eff.logMsg ("Fatal: " ++ m), Eff.exitOne]) ∨
       ((runGeoBatches env.updQ 0 (batches env.batchSize (geoUpdatesOf env))).2 = none ∧
        ∃ m, env.afterQ = some m ∧
        geoTop env = [Eff.queryEff "gaps" true] ++ geoDlTrace env ++
          [Eff.queryEff "allZips" true] ++ (cbsaPhase env).1 ++ [Eff.queryEff "dbZips" true] ++
          (runGeoBatches env.updQ 0 (batches env.batchSize (geoUpdatesOf env))).1 ++
          [Eff.queryEff "after" false, Eff.logMsg ("Fatal: " ++ m), Eff.exitOne]) ∨
       ((runGeoBatches env.updQ 0 (batches env.batchSize (geoUpdatesOf env))).2 = none ∧
        env.afterQ = none ∧
        geoTop env = [Eff.queryEff "gaps" true] ++ geoDlTrace env ++
          [Eff.queryEff "allZips" true] ++ (cbsaPhase env).1 ++ [Eff.queryEff "dbZips" true] ++
          (runGeoBatches env.updQ 0 (batches env.batchSize (geoUpdatesOf env))).1 ++
          [Eff.queryEff "after" true, Eff.poolEnd]))) := by
  cases hg : env.gapsQ with
  | some m =>
    exact Or.inl ⟨m, rfl, by simp [geoTop, geoMain, hg]⟩
  | none =>
    cases ha : env.allZipsQ with
    | some m =>
      exact Or.inr (Or.inl ⟨rfl, m, rfl, by simp [geoTop, geoMain, hg, ha]⟩)
    | none =>
      cases hd : env.dbZipsQ with
      | some m =>
        refine Or.inr (Or.inr (Or.inl ⟨rfl, rfl, m, rfl, ?_⟩))
        simp [geoTop, geoMain, hg, ha, hd, List.append_assoc]
      | none =>
        cases hdry : env.dryRun with
        | true =>
          refine Or.inr (Or.inr (Or.inr (Or.inl ⟨rfl, rfl, rfl, rfl, ?_⟩)))
          simp [geoTop, geoMain, hg, ha, hd, hdry, List.append_assoc]
        | false =>
          refine Or.inr (Or.inr (Or.inr (Or.inr ⟨rfl, rfl, rfl, rfl, ?_⟩)))
          cases hr : (runGeoBatches env.updQ 0 (batches env.batchSize (geoUpdatesOf env))).2 with
          | some m =>
            refine Or.inl ⟨m, rfl, ?_⟩
            simp [geoTop, geoMain, hg, ha, hd, hdry, hr, List.append_assoc]
          | none =>
            cases haf : env.afterQ with
            | some m =>
              refine Or.inr (Or.inl ⟨rfl, m, rfl, ?_⟩)
              simp [geoTop, geoMain, hg, ha, hd, hdry, hr, haf, List.append_assoc]
            | none =>
              refine Or.inr (Or.inr ⟨rfl, rfl, ?_⟩)
              simp [geoTop, geoMain, hg, ha, hd, hdry, hr, haf, List.append_assoc]

theorem metroTop_cases (env : MetroEnv) :
    (∃ m, env.countiesQ = some m ∧
      metroTop env = [Eff.queryEff "counties" false, Eff.logMsg ("Fatal: " ++ m),
        Eff.exitOne]) ∨
    (env.countiesQ = none ∧ metroCfmOf env = [] ∧
      metroTop env = [Eff.queryEff "counties" true] ++ nberTrace env ++
        [Eff.logMsg abortMsg, Eff.poolEnd]) ∨
    (env.countiesQ = none ∧ metroCfmOf env ≠ [] ∧ ∃ m, env.zipsQ = some m ∧
      metroTop env = [Eff.queryEff "counties" true] ++ nberTrace env ++ countyTrace env ++
        [Eff.queryEff "zips" false, Eff.logMsg ("Fatal: " ++ m), Eff.exitOne]) ∨
    (env.countiesQ = none ∧ metroCfmOf env ≠ [] ∧ env.zipsQ = none ∧ env.dryRun = true ∧
      metroTop env = [Eff.queryEff "counties" true] ++ nberTrace env ++ countyTrace env ++
        [Eff.queryEff "zips" true] ++
        [Eff.printMetroSamples ((metroUpdatesOf env).take 15), Eff.poolEnd]) ∨
    (env.countiesQ = none ∧ metroCfmOf env ≠ [] ∧ env.zipsQ = none ∧ env.dryRun = false ∧
      ((∃ m, (runMetroBatches env.updQ 0 (batches 500 (metroUpdatesOf env))).2 = some m ∧
        metroTop env = [Eff.queryEff "counties" true] ++ nberTrace env ++ countyTrace env ++
          [Eff.queryEff "zips" true] ++
          (runMetroBatches env.updQ 0 (batches 500 (metroUpdatesOf env))).1 ++
          [Eff.logMsg ("Fatal: " ++ m), Eff.exitOne]) ∨
       ((runMetroBatches env.updQ 0 (batches 500 (metroUpdatesOf env))).2 = none ∧
        ∃ m, env.afterQ = some m ∧
        metroTop env = [Eff.queryEff "counties" true] ++ nberTrace env ++ countyTrace env ++
          [Eff.queryEff "zips" true] ++
          (runMetroBatches env.updQ 0 (batches 500 (metroUpdatesOf env))).1 ++
          [Eff.queryEff "after" false, Eff.logMsg ("Fatal: " ++ m), Eff.exitOne]) ∨
       ((runMetroBatches env.updQ 0 (batches 500 (metroUpdatesOf env))).2 = none ∧
        env.afterQ = none ∧
        metroTop env = [Eff.queryEff "counties" true] ++ nberTrace env ++ countyTrace env ++
          [Eff.queryEff "zips" true] ++
          (runMetroBatches env.updQ 0 (batches 500 (metroUpdatesOf env))).1 ++
          [Eff.queryEff "after" true, Eff.poolEnd]))) := by
  cases hc : env.countiesQ with
  | some m =>
    exact Or.inl ⟨m, rfl, by simp [metroTop, metroMain, hc]⟩
  | none =>
    by_cases hcfm : metroCfmOf env = []
    · exact Or.inr (Or.inl ⟨rfl, hcfm, by simp [metroTop, metroMain, hc, hcfm]⟩)
    · cases hz : env.zipsQ with
      | some m =>
        refine Or.inr (Or.inr (Or.inl ⟨rfl, hcfm, m, rfl, ?_⟩))
        simp [metroTop, metroMain, hc, hcfm, hz, List.append_assoc]
      | none =>
        cases hdry : env.dryRun with
        | true =>
          refine Or.inr (Or.inr (Or.inr (Or.inl ⟨rfl, hcfm, rfl, rfl, ?_⟩)))
          simp [metroTop, metroMain, hc, hcfm, hz, hdry, List.append_assoc]
        | false =>
          refine Or.inr (Or.inr (Or.inr (Or.inr ⟨rfl, hcfm, rfl, rfl, ?_⟩)))
          cases hr : (runMetroBatches env.updQ 0 (batches 500 (metroUpdatesOf env))).2 with
          | some m =>
            refine Or.inl ⟨m, rfl, ?_⟩
            simp [metroTop, metroMain, hc, hcfm, hz, hdry, hr, List.append_assoc]
          | none =>
            cases haf : env.afterQ with
            | some m =>
              refine Or.inr (Or.inl ⟨rfl, m, rfl, ?_⟩)
              simp [metroTop, metroMain, hc, hcfm, hz, hdry, hr, haf, List.append_assoc]
            | none =>
              refine Or.inr (Or.inr ⟨rfl, rfl, ?_⟩)
              simp [metroTop, metroMain, hc, hcfm, hz, hdry, hr, haf, List.append_assoc]

/-- C4: in a live run with working queries, the update statements of the trace
are exactly the consecutive slices of at most `BATCH_SIZE` of the update list
(500 for the metro script), each slice one parameterized UPDATE effect, and the
concatenation of the slices gives back the whole update list — every update is
covered by exactly one batch. -/
theorem claim_C4_batching (envG : GeoEnv) (envM : MetroEnv)
    (hbs : 0 < envG.batchSize)
    (hdryG : envG.dryRun = false) (hdryM : envM.dryRun = false)
    (hg1 : envG.gapsQ = none) (hg2 : envG.allZipsQ = none) (hg3 : envG.dbZipsQ = none)
    (hg4 : envG.afterQ = none) (hgu : ∀ i, envG.updQ i = none)
    (hm1 : envM.countiesQ = none) (hm2 : envM.zipsQ = none) (hm3 : envM.afterQ = none)
    (hmu : ∀ i, envM.updQ i = none) :
    updGeoBatchesOf (geoTop envG) = batches envG.batchSize (geoUpdatesOf envG) ∧
    (batches envG.batchSize (geoUpdatesOf envG)).flatten = geoUpdatesOf envG ∧
    (∀ b ∈ batches envG.batchSize (geoUpdatesOf envG), b.length ≤ envG.batchSize) ∧
    updMetroBatchesOf (metroTop envM) = batches 500 (metroUpdatesOf envM) ∧
    (batches 500 (metroUpdatesOf envM)).flatten = metroUpdatesOf envM ∧
    (∀ b ∈ batches 500 (metroUpdatesOf envM), b.length ≤ 500) := by
  have hrbG := runGeoBatches_ok envG.updQ hgu (batches envG.batchSize (geoUpdatesOf envG)) 0
  have hrbM := runMetroBatches_ok envM.updQ hmu (batches 500 (metroUpdatesOf envM)) 0
  refine ⟨?_, batches_flatten envG.batchSize hbs _, batches_length_le envG.batchSize _, ?_,
    batches_flatten 500 (by omega) _, batches_length_le 500 _⟩
  · rcases geoTop_cases envG with ⟨m, hq, _⟩ | ⟨_, m, hq, _⟩ | ⟨_, _, m, hq, _⟩ |
      ⟨_, _, _, hdry, _⟩ | ⟨_, _, _, _, hbr⟩
    · rw [hg1] at hq; cases hq
    · rw [hg2] at hq; cases hq
    · rw [hg3] at hq; cases hq
    · rw [hdryG] at hdry; cases hdry
    · rcases hbr with ⟨m, hr, _⟩ | ⟨_, m, hq, _⟩ | ⟨_, _, hT⟩
      · rw [hrbG] at hr; cases hr
      · rw [hg4] at hq; cases hq
      · rw [hT, hrbG]
        simp [updGeoBatchesOf_append,
          updGeoBatchesOf_of_clean (geoDlTrace_clean envG),
          updGeoBatchesOf_of_clean (cbsaPhase_clean envG),
          updGeoBatchesOf_map_true]
  · rcases metroTop_cases envM with ⟨m, hq, _⟩ | ⟨_, hcfm, hT⟩ | ⟨_, _, m, hq, _⟩ |
      ⟨_, _, _, hdry, _⟩ | ⟨_, _, _, _, hbr⟩
    · rw [hm1] at hq; cases hq
    · rw [hT, metroUpdatesOf_nil_of_cfm envM hcfm]
      simp [batches, updMetroBatchesOf_append,
        updMetroBatchesOf_of_clean (nberTrace_clean envM)]
    · rw [hm2] at hq; cases hq
    · rw [hdryM] at hdry; cases hdry
    · rcases hbr with ⟨m, hr, _⟩ | ⟨_, m, hq, _⟩ | ⟨_, _, hT⟩
      · rw [hrbM] at hr; cases hr
      · rw [hm3] at hq; cases hq
      · rw [hT, hrbM]
        simp [updMetroBatchesOf_append,
          updMetroBatchesOf_of_clean (nberTrace_clean envM),
          updMetroBatchesOf_of_clean (countyTrace_clean envM),
          updMetroBatchesOf_map_true]

/-- Witness for C4 at the concrete live environments. -/
theorem claim_C4_witness :
    updGeoBatchesOf (geoTop geoEnvLiveW) =
      batches geoEnvLiveW.batchSize (geoUpdatesOf geoEnvLiveW) ∧
    (batches geoEnvLiveW.batchSize (geoUpdatesOf geoEnvLiveW)).flatten =
      geoUpdatesOf geoEnvLiveW ∧
    (∀ b ∈ batches geoEnvLiveW.batchSize (geoUpdatesOf geoEnvLiveW),
      b.length ≤ geoEnvLiveW.batchSize) ∧
    updMetroBatchesOf (metroTop metroEnvLiveW) = batches 500 (metroUpdatesOf metroEnvLiveW) ∧
    (batches 500 (metroUpdatesOf metroEnvLiveW)).flatten = metroUpdatesOf metroEnvLiveW ∧
    (∀ b ∈ batches 500 (metroUpdatesOf metroEnvLiveW), b.length ≤ 500) :=
  claim_C4_batching geoEnvLiveW metroEnvLiveW (by decide) rfl rfl rfl rfl rfl rfl
    (fun _ => rfl) rfl rfl rfl (fun _ => rfl)

/-- C2: with `--dry-run` neither script ever emits an UPDATE statement — the
trace of every dry-run execution contains no batched-update effect, whatever
the downloads, the table and the query outcomes do — and when the queries
succeed (and, for the metro script, CBSA data was built) the run prints the
first 15 sample updates and ends by closing the pool. -/
theorem claim_C2_dry_run (envG : GeoEnv) (envM : MetroEnv)
    (hG : envG.dryRun = true) (hM : envM.dryRun = true) :
    updGeoBatchesOf (geoTop envG) = [] ∧ updMetroBatchesOf (geoTop envG) = [] ∧
    updGeoBatchesOf (metroTop envM) = [] ∧ updMetroBatchesOf (metroTop envM) = [] ∧
    (envG.gapsQ = none → envG.allZipsQ = none → envG.dbZipsQ = none →
      EndsWith (geoTop envG)
        [Eff.printGeoSamples ((geoUpdatesOf envG).take 15), Eff.poolEnd]) ∧
    (envM.countiesQ = none → envM.zipsQ = none → metroCfmOf envM ≠ [] →
      EndsWith (metroTop envM)
        [Eff.printMetroSamples ((metroUpdatesOf envM).take 15), Eff.poolEnd]) := by
  have hgeo : updGeoBatchesOf (geoTop envG) = [] ∧ updMetroBatchesOf (geoTop envG) = [] := by
    rcases geoTop_cases envG with ⟨m, hq, hT⟩ | ⟨_, m, hq, hT⟩ | ⟨_, _, m, hq, hT⟩ |
      ⟨_, _, _, _, hT⟩ | ⟨_, _, _, hdry, _⟩
    · rw [hT]; constructor <;> simp
    · rw [hT]; constructor <;>
        simp [updGeoBatchesOf_append, updMetroBatchesOf_append,
          updGeoBatchesOf_of_clean (geoDlTrace_clean envG),
          updMetroBatchesOf_of_clean (geoDlTrace_clean envG)]
    · rw [hT]; constructor <;>
        simp [updGeoBatchesOf_append, updMetroBatchesOf_append,
          updGeoBatchesOf_of_clean (geoDlTrace_clean envG),
          updMetroBatchesOf_of_clean (geoDlTrace_clean envG),
          updGeoBatchesOf_of_clean (cbsaPhase_clean envG),
          updMetroBatchesOf_of_clean (cbsaPhase_clean envG)]
    · rw [hT]; constructor <;>
        simp [updGeoBatchesOf_append, updMetroBatchesOf_append,
          updGeoBatchesOf_of_clean (geoDlTrace_clean envG),
          updMetroBatchesOf_of_clean (geoDlTrace_clean envG),
          updGeoBatchesOf_of_clean (cbsaPhase_clean envG),
          updMetroBatchesOf_of_clean (cbsaPhase_clean envG)]
    · rw [hG] at hdry; cases hdry
  have hmet : updGeoBatchesOf (metroTop envM) = [] ∧
      updMetroBatchesOf (metroTop envM) = [] := by
    rcases metroTop_cases envM with ⟨m, hq, hT⟩ | ⟨_, _, hT⟩ | ⟨_, _, m, hq, hT⟩ |
      ⟨_, _, _, _, hT⟩ | ⟨_, _, _, hdry, _⟩
    · rw [hT]; constructor <;> simp
    · rw [hT]; constructor <;>
        simp [updGeoBatchesOf_append, updMetroBatchesOf_append,
          updGeoBatchesOf_of_clean (nberTrace_clean envM),
          updMetroBatchesOf_of_clean (nberTrace_clean envM)]
    · rw [hT]; constructor <;>
        simp [updGeoBatchesOf_append, updMetroBatchesOf_append,
          updGeoBatchesOf_of_clean (nberTrace_clean envM),
          updMetroBatchesOf_of_clean (nberTrace_clean envM),
          updGeoBatchesOf_of_clean (countyTrace_clean envM),
          updMetroBatchesOf_of_clean (countyTrace_clean envM)]
    · rw [hT]; constructor <;>
        simp [updGeoBatchesOf_append, updMetroBatchesOf_append,
          updGeoBatchesOf_of_clean (nberTrace_clean envM),
          updMetroBatchesOf_of_clean (nberTrace_clean envM),
          updGeoBatchesOf_of_clean (countyTrace_clean envM),
          updMetroBatchesOf_of_clean (countyTrace_clean envM)]
    · rw [hM] at hdry; cases hdry
  refine ⟨hgeo.1, hgeo.2, hmet.1, hmet.2, ?_, ?_⟩
  · intro hq1 hq2 hq3
    rcases geoTop_cases envG with ⟨m, hq, hT⟩ | ⟨_, m, hq, hT⟩ | ⟨_, _, m, hq, hT⟩ |
      ⟨_, _, _, _, hT⟩ | ⟨_, _, _, hdry, _⟩
    · rw [hq1] at hq; cases hq
    · rw [hq2] at hq; cases hq
    · rw [hq3] at hq; cases hq
    · refine ⟨[Eff.queryEff "gaps" true] ++ geoDlTrace envG ++ [Eff.queryEff "allZips" true] ++
        (cbsaPhase envG).1 ++ [Eff.queryEff "dbZips" true], ?_⟩
      rw [hT]
    · rw [hG] at hdry; cases hdry
  · intro hq1 hq2 hcfm
    rcases metroTop_cases envM with ⟨m, hq, hT⟩ | ⟨_, hcfm2, hT⟩ | ⟨_, _, m, hq, hT⟩ |
      ⟨_, _, _, _, hT⟩ | ⟨_, _, _, hdry, _⟩
    · rw [hq1] at hq; cases hq
    · exact absurd hcfm2 hcfm
    · rw [hq2] at hq; cases hq
    · refine ⟨[Eff.queryEff "counties" true] ++ nberTrace envM ++ countyTrace envM ++
        [Eff.queryEff "zips" true], ?_⟩
      rw [hT]
    · rw [hM] at hdry; cases hdry

theorem not_query_mem_clean {t : List Eff} (h : t.all isDlLog = true) (q : String)
    (b : Bool) : Eff.queryEff q b ∉ t :=
  not_mem_of_all_p h rfl

theorem not_updGeo_mem_clean {t : List Eff} (h : t.all isDlLog = true)
    (b : List GeoUpdate) (ok : Bool) : Eff.updGeo b ok ∉ t :=
  not_mem_of_all_p h rfl

theorem not_updMetro_mem_clean {t : List Eff} (h : t.all isDlLog = true)
    (b : List MetroUpdate) (ok : Bool) : Eff.updMetro b ok ∉ t :=
  not_mem_of_all_p h rfl

theorem not_query_mem_runGeo (updQ : Nat → Option String) (bl : List (List GeoUpdate))
    (i : Nat) (q : String) (b : Bool) :
    Eff.queryEff q b ∉ (runGeoBatches updQ i bl).1 := by
  intro hmem
  have h := runGeoBatches_upd updQ bl i _ hmem
  simp [isUpdE] at h

theorem not_query_mem_runMetro (updQ : Nat → Option String) (bl : List (List MetroUpdate))
    (i : Nat) (q : String) (b : Bool) :
    Eff.queryEff q b ∉ (runMetroBatches updQ i bl).1 := by
  intro hmem
  have h := runMetroBatches_upd updQ bl i _ hmem
  simp [isUpdE] at h

theorem geo_dl_sub (env : GeoEnv) :
    List.Sublist (dlUrls (geoTop env)) [geoDataUrl, zipCbsaUrl, cbsaNamesUrl] := by
  have hrb : dlUrls (runGeoBatches env.updQ 0
      (batches env.batchSize (geoUpdatesOf env))).1 = [] :=
    dlUrls_of_upd (runGeoBatches_upd env.updQ _ 0)
  rcases geoTop_cases env with ⟨m, hq, hT⟩ | ⟨_, m, hq, hT⟩ | ⟨_, _, m, hq, hT⟩ |
    ⟨_, _, _, _, hT⟩ | ⟨_, _, _, _, hbr⟩
  · rw [hT]; simp
  · rw [hT]
    simp [dlUrls_append, geoDlTrace_dl env, List.cons_sublist_cons]
  · rw [hT]
    simp [dlUrls_append, geoDlTrace_dl env, List.cons_sublist_cons]
    all_goals exact cbsaPhase_dl env
  · rw [hT]
    simp [dlUrls_append, geoDlTrace_dl env, List.cons_sublist_cons]
    all_goals exact cbsaPhase_dl env
  · rcases hbr with ⟨m, hr, hT⟩ | ⟨_, m, hq, hT⟩ | ⟨_, _, hT⟩ <;>
      (rw [hT]
       simp [dlUrls_append, geoDlTrace_dl env, hrb, List.cons_sublist_cons]
       all_goals exact cbsaPhase_dl env)

theorem metro_dl_sub (env : MetroEnv) :
    List.Sublist (dlUrls (metroTop env)) [nberUrl, countyMasterUrl] := by
  have hrb : dlUrls (runMetroBatches env.updQ 0 (batches 500 (metroUpdatesOf env))).1 = [] :=
    dlUrls_of_upd (runMetroBatches_upd env.updQ _ 0)
  rcases metroTop_cases env with ⟨m, hq, hT⟩ | ⟨_, _, hT⟩ | ⟨_, hcfm, m, hq, hT⟩ |
    ⟨_, hcfm, _, _, hT⟩ | ⟨_, hcfm, _, _, hbr⟩
  · rw [hT]; simp
  · rw [hT]
    simp [dlUrls_append]
    all_goals exact nberTrace_dl env
  · obtain ⟨txt, hnd⟩ := nberDL_ok_of_cfm_ne env hcfm
    rw [hT, nberTrace_ok env txt hnd]
    simp [dlUrls_append, countyTrace_dl env, List.cons_sublist_cons]
  · obtain ⟨txt, hnd⟩ := nberDL_ok_of_cfm_ne env hcfm
    rw [hT, nberTrace_ok env txt hnd]
    simp [dlUrls_append, countyTrace_dl env, List.cons_sublist_cons]
  · obtain ⟨txt, hnd⟩ := nberDL_ok_of_cfm_ne env hcfm
    rcases hbr with ⟨m, hr, hT⟩ | ⟨_, m, hq, hT⟩ | ⟨_, _, hT⟩ <;>
      (rw [hT, nberTrace_ok env txt hnd]
       simp [dlUrls_append, countyTrace_dl env, hrb, List.cons_sublist_cons])

/-- C6: no failed operation is re-attempted, and errors escaping `main` are
handled only by the top-level catch: each download URL appears at most once in
any trace (the download lists are duplicate-free); every run ends either by
closing the pool or with the fatal log followed by `process.exit(1)`; and a
failed query or a failed batched UPDATE is immediately terminal — it is the
last effect before the fatal log and the exit. -/
theorem claim_C6_catch_exit (envG : GeoEnv) (envM : MetroEnv) :
    (dlUrls (geoTop envG)).Nodup ∧
    (dlUrls (metroTop envM)).Nodup ∧
    ((∃ p, geoTop envG = p ++ [Eff.poolEnd]) ∨
     (∃ p m, geoTop envG = p ++ [Eff.logMsg ("Fatal: " ++ m), Eff.exitOne])) ∧
    ((∃ p, metroTop envM = p ++ [Eff.poolEnd]) ∨
     (∃ p m, metroTop envM = p ++ [Eff.logMsg ("Fatal: " ++ m), Eff.exitOne])) ∧
    (∀ q, Eff.queryEff q false ∈ geoTop envG →
      ∃ p m, geoTop envG =
        p ++ [Eff.queryEff q false, Eff.logMsg ("Fatal: " ++ m), Eff.exitOne]) ∧
    (∀ q, Eff.queryEff q false ∈ metroTop envM →
      ∃ p m, metroTop envM =
        p ++ [Eff.queryEff q false, Eff.logMsg ("Fatal: " ++ m), Eff.exitOne]) ∧
    (∀ b, Eff.updGeo b false ∈ geoTop envG →
      ∃ p m, geoTop envG =
        p ++ [Eff.updGeo b false, Eff.logMsg ("Fatal: " ++ m), Eff.exitOne]) ∧
    (∀ b, Eff.updMetro b false ∈ metroTop envM →
      ∃ p m, metroTop envM =
        p ++ [Eff.updMetro b false, Eff.logMsg ("Fatal: " ++ m), Eff.exitOne]) := by
  refine ⟨List.Nodup.sublist (geo_dl_sub envG) (by decide),
    List.Nodup.sublist (metro_dl_sub envM) (by decide), ?_, ?_, ?_, ?_, ?_, ?_⟩
  · rcases geoTop_cases envG with ⟨m, hq, hT⟩ | ⟨_, m, hq, hT⟩ | ⟨_, _, m, hq, hT⟩ |
      ⟨_, _, _, _, hT⟩ | ⟨_, _, _, _, hbr⟩
    · exact Or.inr ⟨[Eff.queryEff "gaps" false], m, by rw [hT]; all_goals simp⟩
    · exact Or.inr ⟨[Eff.queryEff "gaps" true] ++ geoDlTrace envG ++
        [Eff.queryEff "allZips" false], m, by rw [hT]; all_goals simp⟩
    · exact Or.inr ⟨[Eff.queryEff "gaps" true] ++ geoDlTrace envG ++
        [Eff.queryEff "allZips" true] ++ (cbsaPhase envG).1 ++
        [Eff.queryEff "dbZips" false], m, by rw [hT]; all_goals simp⟩
    · exact Or.inl ⟨[Eff.queryEff "gaps" true] ++ geoDlTrace envG ++
        [Eff.queryEff "allZips" true] ++ (cbsaPhase envG).1 ++ [Eff.queryEff "dbZips" true] ++
        [Eff.printGeoSamples ((geoUpdatesOf envG).take 15)], by rw [hT]; all_goals simp⟩
    · rcases hbr with ⟨m, hr, hT⟩ | ⟨_, m, hq, hT⟩ | ⟨_, _, hT⟩
      · rcases runGeoBatches_err envG.updQ _ 0 m hr with ⟨t2, b0, ht, _⟩
        exact Or.inr ⟨[Eff.queryEff "gaps" true] ++ geoDlTrace envG ++
          [Eff.queryEff "allZips" true] ++ (cbsaPhase envG).1 ++ [Eff.queryEff "dbZips" true] ++
          (runGeoBatches envG.updQ 0 (batches envG.batchSize (geoUpdatesOf envG))).1,
          m, by rw [hT]; all_goals simp⟩
      · exact Or.inr ⟨[Eff.queryEff "gaps" true] ++ geoDlTrace envG ++
          [Eff.queryEff "allZips" true] ++ (cbsaPhase envG).1 ++ [Eff.queryEff "dbZips" true] ++
          (runGeoBatches envG.updQ 0 (batches envG.batchSize (geoUpdatesOf envG))).1 ++
          [Eff.queryEff "after" false], m, by rw [hT]; all_goals simp⟩
      · exact Or.inl ⟨[Eff.queryEff "gaps" true] ++ geoDlTrace envG ++
          [Eff.queryEff "allZips" true] ++ (cbsaPhase envG).1 ++ [Eff.queryEff "dbZips" true] ++
          (runGeoBatches envG.updQ 0 (batches envG.batchSize (geoUpdatesOf envG))).1 ++
          [Eff.queryEff "after" true], by rw [hT]; all_goals simp⟩
  · rcases metroTop_cases envM with ⟨m, hq, hT⟩ | ⟨_, _, hT⟩ | ⟨_, _, m, hq, hT⟩ |
      ⟨_, _, _, _, hT⟩ | ⟨_, _, _, _, hbr⟩
    · exact Or.inr ⟨[Eff.queryEff "counties" false], m, by rw [hT]; all_goals simp⟩
    · exact Or.inl ⟨[Eff.queryEff "counties" true] ++ nberTrace envM ++ [Eff.logMsg abortMsg],
        by rw [hT]; all_goals simp⟩
    · exact Or.inr ⟨[Eff.queryEff "counties" true] ++ nberTrace envM ++ countyTrace envM ++
        [Eff.queryEff "zips" false], m, by rw [hT]; all_goals simp⟩
    · exact Or.inl ⟨[Eff.queryEff "counties" true] ++ nberTrace envM ++ countyTrace envM ++
        [Eff.queryEff "zips" true] ++
        [Eff.printMetroSamples ((metroUpdatesOf envM).take 15)], by rw [hT]; all_goals simp⟩
    · rcases hbr with ⟨m, hr, hT⟩ | ⟨_, m, hq, hT⟩ | ⟨_, _, hT⟩
      · exact Or.inr ⟨[Eff.queryEff "counties" true] ++ nberTrace envM ++ countyTrace envM ++
          [Eff.queryEff "zips" true] ++
          (runMetroBatches envM.updQ 0 (batches 500 (metroUpdatesOf envM))).1,
          m, by rw [hT]; all_goals simp⟩
      · exact Or.inr ⟨[Eff.queryEff "counties" true] ++ nberTrace envM ++ countyTrace envM ++
          [Eff.queryEff "zips" true] ++
          (runMetroBatches envM.updQ 0 (batches 500 (metroUpdatesOf envM))).1 ++
          [Eff.queryEff "after" false], m, by rw [hT]; all_goals simp⟩
      · exact Or.inl ⟨[Eff.queryEff "counties" true] ++ nberTrace envM ++ countyTrace envM ++
          [Eff.queryEff "zips" true] ++
          (runMetroBatches envM.updQ 0 (batches 500 (metroUpdatesOf envM))).1 ++
          [Eff.queryEff "after" true], by rw [hT]; all_goals simp⟩
  · intro q hqmem
    rcases geoTop_cases envG with ⟨m, hq, hT⟩ | ⟨_, m, hq, hT⟩ | ⟨_, _, m, hq, hT⟩ |
      ⟨_, _, _, _, hT⟩ | ⟨_, _, _, _, hbr⟩
    · rw [hT] at hqmem
      simp at hqmem
      subst hqmem
      exact ⟨[], m, hT⟩
    · rw [hT] at hqmem
      simp [not_query_mem_clean (geoDlTrace_clean envG)] at hqmem
      subst hqmem
      exact ⟨[Eff.queryEff "gaps" true] ++ geoDlTrace envG, m, by rw [hT]; all_goals simp⟩
    · rw [hT] at hqmem
      simp [not_query_mem_clean (geoDlTrace_clean envG),
        not_query_mem_clean (cbsaPhase_clean envG)] at hqmem
      subst hqmem
      exact ⟨[Eff.queryEff "gaps" true] ++ geoDlTrace envG ++ [Eff.queryEff "allZips" true] ++
        (cbsaPhase envG).1, m, by rw [hT]; all_goals simp⟩
    · rw [hT] at hqmem
      simp [not_query_mem_clean (geoDlTrace_clean envG),
        not_query_mem_clean (cbsaPhase_clean envG)] at hqmem
    · rcases hbr with ⟨m, hr, hT⟩ | ⟨_, m, hq, hT⟩ | ⟨_, _, hT⟩
      · rw [hT] at hqmem
        simp [not_query_mem_clean (geoDlTrace_clean envG),
          not_query_mem_clean (cbsaPhase_clean envG),
          not_query_mem_runGeo envG.updQ _ 0] at hqmem
      · rw [hT] at hqmem
        simp [not_query_mem_clean (geoDlTrace_clean envG),
          not_query_mem_clean (cbsaPhase_clean envG),
          not_query_mem_runGeo envG.updQ _ 0] at hqmem
        subst hqmem
        exact ⟨[Eff.queryEff "gaps" true] ++ geoDlTrace envG ++
          [Eff.queryEff "allZips" true] ++ (cbsaPhase envG).1 ++ [Eff.queryEff "dbZips" true] ++
          (runGeoBatches envG.updQ 0 (batches envG.batchSize (geoUpdatesOf envG))).1,
          m, by rw [hT]; all_goals simp⟩
      · rw [hT] at hqmem
        simp [not_query_mem_clean (geoDlTrace_clean envG),
          not_query_mem_clean (cbsaPhase_clean envG),
          not_query_mem_runGeo envG.updQ _ 0] at hqmem
  · intro q hqmem
    rcases metroTop_cases envM with ⟨m, hq, hT⟩ | ⟨_, _, hT⟩ | ⟨_, _, m, hq, hT⟩ |
      ⟨_, _, _, _, hT⟩ | ⟨_, _, _, _, hbr⟩
    · rw [hT] at hqmem
      simp at hqmem
      subst hqmem
      exact ⟨[], m, hT⟩
    · rw [hT] at hqmem
      simp [not_query_mem_clean (nberTrace_clean envM)] at hqmem
    · rw [hT] at hqmem
      simp [not_query_mem_clean (nberTrace_clean envM),
        not_query_mem_clean (countyTrace_clean envM)] at hqmem
      subst hqmem
      exact ⟨[Eff.queryEff "counties" true] ++ nberTrace envM ++ countyTrace envM, m,
        by rw [hT]; all_goals simp⟩
    · rw [hT] at hqmem
      simp [not_query_mem_clean (nberTrace_clean envM),
        not_query_mem_clean (countyTrace_clean envM)] at hqmem
    · rcases hbr with ⟨m, hr, hT⟩ | ⟨_, m, hq, hT⟩ | ⟨_, _, hT⟩
      · rw [hT] at hqmem
        simp [not_query_mem_clean (nberTrace_clean envM),
          not_query_mem_clean (countyTrace_clean envM),
          not_query_mem_runMetro envM.updQ _ 0] at hqmem
      · rw [hT] at hqmem
        simp [not_query_mem_clean (nberTrace_clean envM),
          not_query_mem_clean (countyTrace_clean envM),
          not_query_mem_runMetro envM.updQ _ 0] at hqmem
        subst hqmem
        exact ⟨[Eff.queryEff "counties" true] ++ nberTrace envM ++ countyTrace envM ++
          [Eff.queryEff "zips" true] ++
          (runMetroBatches envM.updQ 0 (batches 500 (metroUpdatesOf envM))).1, m,
          by rw [hT]; all_goals simp⟩
      · rw [hT] at hqmem
        simp [not_query_mem_clean (nberTrace_clean envM),
          not_query_mem_clean (countyTrace_clean envM),
          not_query_mem_runMetro envM.updQ _ 0] at hqmem
  · intro b hbmem
    rcases geoTop_cases envG with ⟨m, hq, hT⟩ | ⟨_, m, hq, hT⟩ | ⟨_, _, m, hq, hT⟩ |
      ⟨_, _, _, _, hT⟩ | ⟨_, _, _, _, hbr⟩
    · rw [hT] at hbmem
      simp at hbmem
    · rw [hT] at hbmem
      simp [not_updGeo_mem_clean (geoDlTrace_clean envG)] at hbmem
    · rw [hT] at hbmem
      simp [not_updGeo_mem_clean (geoDlTrace_clean envG),
        not_updGeo_mem_clean (cbsaPhase_clean envG)] at hbmem
    · rw [hT] at hbmem
      simp [not_updGeo_mem_clean (geoDlTrace_clean envG),
        not_updGeo_mem_clean (cbsaPhase_clean envG)] at hbmem
    · rcases hbr with ⟨m, hr, hT⟩ | ⟨hr, m, hq, hT⟩ | ⟨hr, _, hT⟩
      · rcases runGeoBatches_err envG.updQ _ 0 m hr with ⟨t2, b0, ht, hall⟩
        rw [hT, ht] at hbmem
        simp [not_updGeo_mem_clean (geoDlTrace_clean envG),
          not_updGeo_mem_clean (cbsaPhase_clean envG)] at hbmem
        rcases hbmem with hbmem | hbmem
        · rcases hall _ hbmem with ⟨b2, hb2⟩
          simp at hb2
        · subst hbmem
          exact ⟨[Eff.queryEff "gaps" true] ++ geoDlTrace envG ++
            [Eff.queryEff "allZips" true] ++ (cbsaPhase envG).1 ++
            [Eff.queryEff "dbZips" true] ++ t2, m, by rw [hT, ht]; all_goals simp⟩
      · rw [hT] at hbmem
        simp [not_updGeo_mem_clean (geoDlTrace_clean envG),
          not_updGeo_mem_clean (cbsaPhase_clean envG)] at hbmem
        rcases runGeoBatches_none envG.updQ _ 0 hr _ hbmem with ⟨b2, hb2⟩
        cases hb2
      · rw [hT] at hbmem
        simp [not_updGeo_mem_clean (geoDlTrace_clean envG),
          not_updGeo_mem_clean (cbsaPhase_clean envG)] at hbmem
        rcases runGeoBatches_none envG.updQ _ 0 hr _ hbmem with ⟨b2, hb2⟩
        cases hb2
  · intro b hbmem
    rcases metroTop_cases envM with ⟨m, hq, hT⟩ | ⟨_, _, hT⟩ | ⟨_, _, m, hq, hT⟩ |
      ⟨_, _, _, _, hT⟩ | ⟨_, _, _, _, hbr⟩
    · rw [hT] at hbmem
      simp at hbmem
    · rw [hT] at hbmem
      simp [not_updMetro_mem_clean (nberTrace_clean envM)] at hbmem
    · rw [hT] at hbmem
      simp [not_updMetro_mem_clean (nberTrace_clean envM),
        not_updMetro_mem_clean (countyTrace_clean envM)] at hbmem
    · rw [hT] at hbmem
      simp [not_updMetro_mem_clean (nberTrace_clean envM),
        not_updMetro_mem_clean (countyTrace_clean envM)] at hbmem
    · rcases hbr with ⟨m, hr, hT⟩ | ⟨hr, m, hq, hT⟩ | ⟨hr, _, hT⟩
      · rcases runMetroBatches_err envM.updQ _ 0 m hr with ⟨t2, b0, ht, hall⟩
        rw [hT, ht] at hbmem
        simp [not_updMetro_mem_clean (nberTrace_clean envM),
          not_updMetro_mem_clean (countyTrace_clean envM)] at hbmem
        rcases hbmem with hbmem | hbmem
        · rcases hall _ hbmem with ⟨b2, hb2⟩
          simp at hb2
        · subst hbmem
          exact ⟨[Eff.queryEff "counties" true] ++ nberTrace envM ++ countyTrace envM ++
            [Eff.queryEff "zips" true] ++ t2, m, by rw [hT, ht]; all_goals simp⟩
      · rw [hT] at hbmem
        simp [not_updMetro_mem_clean (nberTrace_clean envM),
          not_updMetro_mem_clean (countyTrace_clean envM)] at hbmem
        rcases runMetroBatches_none envM.updQ _ 0 hr _ hbmem with ⟨b2, hb2⟩
        cases hb2
      · rw [hT] at hbmem
        simp [not_updMetro_mem_clean (nberTrace_clean envM),
          not_updMetro_mem_clean (countyTrace_clean envM)] at hbmem
        rcases runMetroBatches_none envM.updQ _ 0 hr _ hbmem with ⟨b2, hb2⟩
        cases hb2

/-- Witness for C6: duplicate-free downloads on a successful dry run, and the
failed-query-is-terminal part at a run whose first query throws. -/
theorem claim_C6_witness :
    (dlUrls (geoTop geoEnvW)).Nodup ∧
    (∃ p m, geoTop geoEnvQFailW =
      p ++ [Eff.queryEff "gaps" false, Eff.logMsg ("Fatal: " ++ m), Eff.exitOne]) :=
  ⟨(claim_C6_catch_exit geoEnvW metroEnvW).1,
   (claim_C6_catch_exit geoEnvQFailW metroEnvW).2.2.2.2.1 "gaps" (by decide)⟩

theorem forall_mem_nil_eff (P : Eff → Prop) : ∀ e ∈ ([] : List Eff), P e := by simp

theorem forall_mem_cons_eff {P : Eff → Prop} {e0 : Eff} {b : List Eff} (h0 : P e0)
    (hb : ∀ e ∈ b, P e) : ∀ e ∈ e0 :: b, P e := by
  intro e he
  rcases List.mem_cons.mp he with h | h
  · subst h; exact h0
  · exact hb e h

theorem forall_mem_append_eff {P : Eff → Prop} {a b : List Eff} (ha : ∀ e ∈ a, P e)
    (hb : ∀ e ∈ b, P e) : ∀ e ∈ a ++ b, P e := by
  intro e he
  rcases List.mem_append.mp he with h | h
  · exact ha e h
  · exact hb e h

theorem noUpd_clean {t : List Eff} (h : t.all isDlLog = true) :
    ∀ e ∈ t, isUpdE e = false :=
  fun e he => isUpdE_of_isDlLog (List.all_eq_true.mp h e he)

theorem isDlE_of_upd {e : Eff} (h : isUpdE e = true) : isDlE e = false := by
  cases e <;> simp [isUpdE, isDlE] at *

theorem noDl_run_geo (updQ : Nat → Option String) (bl : List (List GeoUpdate)) (i : Nat) :
    ∀ e ∈ (runGeoBatches updQ i bl).1, isDlE e = false :=
  fun e he => isDlE_of_upd (runGeoBatches_upd updQ bl i e he)

theorem noDl_run_metro (updQ : Nat → Option String) (bl : List (List MetroUpdate)) (i : Nat) :
    ∀ e ∈ (runMetroBatches updQ i bl).1, isDlE e = false :=
  fun e he => isDlE_of_upd (runMetroBatches_upd updQ bl i e he)

/-- C8: each enrichment run is a linear pipeline — every trace splits into a
first part with no UPDATE effect followed by a part with no download effect
(downloads strictly precede the batched updates), no URL is downloaded more
than once per run, and the join loops are single passes: the update lists are
exactly `filterMap` of the per-row function over the selected rows, reading
each row once. -/
theorem claim_C8_single_pass (envG : GeoEnv) (envM : MetroEnv) :
    (∃ t1 t2, geoTop envG = t1 ++ t2 ∧ (∀ e ∈ t1, isUpdE e = false) ∧
      (∀ e ∈ t2, isDlE e = false)) ∧
    (∃ t1 t2, metroTop envM = t1 ++ t2 ∧ (∀ e ∈ t1, isUpdE e = false) ∧
      (∀ e ∈ t2, isDlE e = false)) ∧
    (dlUrls (geoTop envG)).Nodup ∧ (dlUrls (metroTop envM)).Nodup ∧
    (∀ zg zm rows, buildGeoUpdates zg zm rows = rows.filterMap (geoPerRow zg zm)) ∧
    (∀ cnf cfm rows, buildMetroUpdates cnf cfm rows = rows.filterMap (metroPerRow cnf cfm)) := by
  refine ⟨?_, ?_, List.Nodup.sublist (geo_dl_sub envG) (by decide),
    List.Nodup.sublist (metro_dl_sub envM) (by decide),
    fun zg zm rows => buildGeoUpdates_eq zg zm rows,
    fun cnf cfm rows => buildMetroUpdates_eq cnf cfm rows⟩
  · have hdlClean := noUpd_clean (geoDlTrace_clean envG)
    have hcbClean := noUpd_clean (cbsaPhase_clean envG)
    rcases geoTop_cases envG with ⟨m, hq, hT⟩ | ⟨_, m, hq, hT⟩ | ⟨_, _, m, hq, hT⟩ |
      ⟨_, _, _, _, hT⟩ | ⟨_, _, _, _, hbr⟩
    · refine ⟨[Eff.queryEff "gaps" false], [Eff.logMsg ("Fatal: " ++ m), Eff.exitOne],
        by rw [hT]; all_goals simp, ?_, ?_⟩
      · exact forall_mem_cons_eff rfl (forall_mem_nil_eff _)
      · exact forall_mem_cons_eff rfl (forall_mem_cons_eff rfl (forall_mem_nil_eff _))
    · refine ⟨[Eff.queryEff "gaps" true] ++ geoDlTrace envG,
        [Eff.queryEff "allZips" false, Eff.logMsg ("Fatal: " ++ m), Eff.exitOne],
        by rw [hT]; all_goals simp, ?_, ?_⟩
      · exact forall_mem_append_eff (forall_mem_cons_eff rfl (forall_mem_nil_eff _)) hdlClean
      · exact forall_mem_cons_eff rfl
          (forall_mem_cons_eff rfl (forall_mem_cons_eff rfl (forall_mem_nil_eff _)))
    · refine ⟨[Eff.queryEff "gaps" true] ++ geoDlTrace envG ++ [Eff.queryEff "allZips" true] ++
        (cbsaPhase envG).1,
        [Eff.queryEff "dbZips" false, Eff.logMsg ("Fatal: " ++ m), Eff.exitOne],
        by rw [hT]; all_goals simp, ?_, ?_⟩
      · exact forall_mem_append_eff
          (forall_mem_append_eff
            (forall_mem_append_eff (forall_mem_cons_eff rfl (forall_mem_nil_eff _)) hdlClean)
            (forall_mem_cons_eff rfl (forall_mem_nil_eff _)))
          hcbClean
      · exact forall_mem_cons_eff rfl
          (forall_mem_cons_eff rfl (forall_mem_cons_eff rfl (forall_mem_nil_eff _)))
    · refine ⟨[Eff.queryEff "gaps" true] ++ geoDlTrace envG ++ [Eff.queryEff "allZips" true] ++
        (cbsaPhase envG).1,
        [Eff.queryEff "dbZips" true, Eff.printGeoSamples ((geoUpdatesOf envG).take 15),
          Eff.poolEnd],
        by rw [hT]; all_goals simp, ?_, ?_⟩
      · exact forall_mem_append_eff
          (forall_mem_append_eff
            (forall_mem_append_eff (forall_mem_cons_eff rfl (forall_mem_nil_eff _)) hdlClean)
            (forall_mem_cons_eff rfl (forall_mem_nil_eff _)))
          hcbClean
      · exact forall_mem_cons_eff rfl
          (forall_mem_cons_eff rfl (forall_mem_cons_eff rfl (forall_mem_nil_eff _)))
    · have hrun := noDl_run_geo envG.updQ (batches envG.batchSize (geoUpdatesOf envG)) 0
      have ht1 : ∀ e ∈ [Eff.queryEff "gaps" true] ++ geoDlTrace envG ++
          [Eff.queryEff "allZips" true] ++ (cbsaPhase envG).1, isUpdE e = false :=
        forall_mem_append_eff
          (forall_mem_append_eff
            (forall_mem_append_eff (forall_mem_cons_eff rfl (forall_mem_nil_eff _)) hdlClean)
            (forall_mem_cons_eff rfl (forall_mem_nil_eff _)))
          hcbClean
      rcases hbr with ⟨m, hr, hT⟩ | ⟨_, m, hq, hT⟩ | ⟨_, _, hT⟩
      · exact ⟨_, [Eff.queryEff "dbZips" true] ++
          (runGeoBatches envG.updQ 0 (batches envG.batchSize (geoUpdatesOf envG))).1 ++
          [Eff.logMsg ("Fatal: " ++ m), Eff.exitOne],
          by rw [hT]; all_goals simp, ht1,
          forall_mem_append_eff
            (forall_mem_append_eff (forall_mem_cons_eff rfl (forall_mem_nil_eff _)) hrun)
            (forall_mem_cons_eff rfl (forall_mem_cons_eff rfl (forall_mem_nil_eff _)))⟩
      · exact ⟨_, [Eff.queryEff "dbZips" true] ++
          (runGeoBatches envG.updQ 0 (batches envG.batchSize (geoUpdatesOf envG))).1 ++
          [Eff.queryEff "after" false, Eff.logMsg ("Fatal: " ++ m), Eff.exitOne],
          by rw [hT]; all_goals simp, ht1,
          forall_mem_append_eff
            (forall_mem_append_eff (forall_mem_cons_eff rfl (forall_mem_nil_eff _)) hrun)
            (forall_mem_cons_eff rfl
              (forall_mem_cons_eff rfl (forall_mem_cons_eff rfl (forall_mem_nil_eff _))))⟩
      · exact ⟨_, [Eff.queryEff "dbZips" true] ++
          (runGeoBatches envG.updQ 0 (batches envG.batchSize (geoUpdatesOf envG))).1 ++
          [Eff.queryEff "after" true, Eff.poolEnd],
          by rw [hT]; all_goals simp, ht1,
          forall_mem_append_eff
            (forall_mem_append_eff (forall_mem_cons_eff rfl (forall_mem_nil_eff _)) hrun)
            (forall_mem_cons_eff rfl (forall_mem_cons_eff rfl (forall_mem_nil_eff _)))⟩
  · have hnbClean := noUpd_clean (nberTrace_clean envM)
    have hctClean := noUpd_clean (countyTrace_clean envM)
    rcases metroTop_cases envM with ⟨m, hq, hT⟩ | ⟨_, _, hT⟩ | ⟨_, _, m, hq, hT⟩ |
      ⟨_, _, _, _, hT⟩ | ⟨_, _, _, _, hbr⟩
    · refine ⟨[Eff.queryEff "counties" false], [Eff.logMsg ("Fatal: " ++ m), Eff.exitOne],
        by rw [hT]; all_goals simp, ?_, ?_⟩
      · exact forall_mem_cons_eff rfl (forall_mem_nil_eff _)
      · exact forall_mem_cons_eff rfl (forall_mem_cons_eff rfl (forall_mem_nil_eff _))
    · refine ⟨[Eff.queryEff "counties" true] ++ nberTrace envM,
        [Eff.logMsg abortMsg, Eff.poolEnd], by rw [hT]; all_goals simp, ?_, ?_⟩
      · exact forall_mem_append_eff (forall_mem_cons_eff rfl (forall_mem_nil_eff _)) hnbClean
      · exact forall_mem_cons_eff rfl (forall_mem_cons_eff rfl (forall_mem_nil_eff _))
    · refine ⟨[Eff.queryEff "counties" true] ++ nberTrace envM ++ countyTrace envM,
        [Eff.queryEff "zips" false, Eff.logMsg ("Fatal: " ++ m), Eff.exitOne],
        by rw [hT]; all_goals simp, ?_, ?_⟩
      · exact forall_mem_append_eff
          (forall_mem_append_eff (forall_mem_cons_eff rfl (forall_mem_nil_eff _)) hnbClean)
          hctClean
      · exact forall_mem_cons_eff rfl
          (forall_mem_cons_eff rfl (forall_mem_cons_eff rfl (forall_mem_nil_eff _)))
    · refine ⟨[Eff.queryEff "counties" true] ++ nberTrace envM ++ countyTrace envM,
        [Eff.queryEff "zips" true,
          Eff.printMetroSamples ((metroUpdatesOf envM).take 15), Eff.poolEnd],
        by rw [hT]; all_goals simp, ?_, ?_⟩
      · exact forall_mem_append_eff
          (forall_mem_append_eff (forall_mem_cons_eff rfl (forall_mem_nil_eff _)) hnbClean)
          hctClean
      · exact forall_mem_cons_eff rfl
          (forall_mem_cons_eff rfl (forall_mem_cons_eff rfl (forall_mem_nil_eff _)))
    · have hrun := noDl_run_metro envM.updQ (batches 500 (metroUpdatesOf envM)) 0
      have ht1 : ∀ e ∈ [Eff.queryEff "counties" true] ++ nberTrace envM ++ countyTrace envM,
          isUpdE e = false :=
        forall_mem_append_eff
          (forall_mem_append_eff (forall_mem_cons_eff rfl (forall_mem_nil_eff _)) hnbClean)
          hctClean
      rcases hbr with ⟨m, hr, hT⟩ | ⟨_, m, hq, hT⟩ | ⟨_, _, hT⟩
      · exact ⟨_, [Eff.queryEff "zips" true] ++
          (runMetroBatches envM.updQ 0 (batches 500 (metroUpdatesOf envM))).1 ++
          [Eff.logMsg ("Fatal: " ++ m), Eff.exitOne],
          by rw [hT]; all_goals simp, ht1,
          forall_mem_append_eff
            (forall_mem_append_eff (forall_mem_cons_eff rfl (forall_mem_nil_eff _)) hrun)
            (forall_mem_cons_eff rfl (forall_mem_cons_eff rfl (forall_mem_nil_eff _)))⟩
      · exact ⟨_, [Eff.queryEff "zips" true] ++
          (runMetroBatches envM.updQ 0 (batches 500 (metroUpdatesOf envM))).1 ++
          [Eff.queryEff "after" false, Eff.logMsg ("Fatal: " ++ m), Eff.exitOne],
          by rw [hT]; all_goals simp, ht1,
          forall_mem_append_eff
            (forall_mem_append_eff (forall_mem_cons_eff rfl (forall_mem_nil_eff _)) hrun)
            (forall_mem_cons_eff rfl
              (forall_mem_cons_eff rfl (forall_mem_cons_eff rfl (forall_mem_nil_eff _))))⟩
      · exact ⟨_, [Eff.queryEff "zips" true] ++
          (runMetroBatches envM.updQ 0 (batches 500 (metroUpdatesOf envM))).1 ++
          [Eff.queryEff "after" true, Eff.poolEnd],
          by rw [hT]; all_goals simp, ht1,
          forall_mem_append_eff
            (forall_mem_append_eff (forall_mem_cons_eff rfl (forall_mem_nil_eff _)) hrun)
            (forall_mem_cons_eff rfl (forall_mem_cons_eff rfl (forall_mem_nil_eff _)))⟩

/-- Witness for C8: the single-pass characterisation of both join loops at
concrete lookup maps and rows. -/
theorem claim_C8_witness :
    buildGeoUpdates zgW [] [rowW2] = [rowW2].filterMap (geoPerRow zgW []) ∧
    buildMetroUpdates cnfW cfmW [rowW] = [rowW].filterMap (metroPerRow cnfW cfmW) :=
  ⟨(claim_C8_single_pass geoEnvW metroEnvW).2.2.2.2.1 zgW [] [rowW2],
   (claim_C8_single_pass geoEnvW metroEnvW).2.2.2.2.2 cnfW cfmW [rowW]⟩

/-- C5 counterexample: with a failing NBER download the metro script does NOT
simply log and continue with the maps already built — it performs an
additional recovery action (the fallback download of the county FIPS master)
and then aborts the run: the zips query is never executed, the trace performs
two downloads and ends at the abort. -/
theorem claim_C5_counterexample :
    metroTop envC5 =
      [Eff.queryEff "counties" true, Eff.downloadEff nberUrl false,
       Eff.logMsg "NBER download failed: boom", Eff.downloadEff countyMasterUrl true,
       Eff.logMsg abortMsg, Eff.poolEnd] ∧
    Eff.downloadEff countyMasterUrl true ∈ metroTop envC5 ∧
    Eff.queryEff "zips" true ∉ metroTop envC5 ∧
    Eff.queryEff "zips" false ∉ metroTop envC5 ∧
    (dlUrls (metroTop envC5)).length = 2 := by
  decide

/-- C5 (amended): in `geo-enrich.js` a failed download is caught, its message
logged, and the run continues to the next phase with the maps built so far; in
the metro script a failed NBER download is caught and logged, then a fallback
download of the county FIPS master is attempted (its rows are never parsed
into the map), and the run aborts — the pool is closed, no UPDATE is issued
and the zips query never runs. -/
theorem claim_C5_amended (envG : GeoEnv) (envM : MetroEnv) :
    (∀ m, envG.geoDL = Except.error m → envG.gapsQ = none →
      Eff.logMsg ("Download failed: " ++ m) ∈ geoTop envG ∧
      (envG.allZipsQ = none → Eff.queryEff "allZips" true ∈ geoTop envG)) ∧
    (∀ m, envG.cbsaDL = Except.error m → envG.gapsQ = none → envG.allZipsQ = none →
      Eff.logMsg ("CBSA download failed: " ++ m) ∈ geoTop envG ∧
      (envG.dbZipsQ = none → Eff.queryEff "dbZips" true ∈ geoTop envG)) ∧
    (∀ m, envM.nberDL = Except.error m → envM.countiesQ = none →
      Eff.logMsg ("NBER download failed: " ++ m) ∈ metroTop envM ∧
      (∃ ok, Eff.downloadEff countyMasterUrl ok ∈ metroTop envM) ∧
      EndsWith (metroTop envM) [Eff.poolEnd] ∧
      updMetroBatchesOf (metroTop envM) = [] ∧
      (∀ b, Eff.queryEff "zips" b ∉ metroTop envM)) := by
  refine ⟨?_, ?_, ?_⟩
  · intro m hdl hq1
    have hlog := geoDlTrace_log envG m hdl
    rcases geoTop_cases envG with ⟨m2, hq, hT⟩ | ⟨_, m2, hq, hT⟩ | ⟨_, _, m2, hq, hT⟩ |
      ⟨_, _, _, _, hT⟩ | ⟨_, _, _, _, hbr⟩
    · rw [hq1] at hq; cases hq
    · refine ⟨by rw [hT]; simp [List.mem_append, hlog], fun hq2 => ?_⟩
      rw [hq2] at hq; cases hq
    · exact ⟨by rw [hT]; simp [List.mem_append, hlog],
        fun _ => by rw [hT]; simp [List.mem_append]⟩
    · exact ⟨by rw [hT]; simp [List.mem_append, hlog],
        fun _ => by rw [hT]; simp [List.mem_append]⟩
    · rcases hbr with ⟨m2, hr, hT⟩ | ⟨_, m2, hq2, hT⟩ | ⟨_, _, hT⟩ <;>
        exact ⟨by rw [hT]; simp [List.mem_append, hlog],
          fun _ => by rw [hT]; simp [List.mem_append]⟩
  · intro m hdl hq1 hq2
    have hlog := cbsaPhase_log envG m hdl
    rcases geoTop_cases envG with ⟨m2, hq, hT⟩ | ⟨_, m2, hq, hT⟩ | ⟨_, _, m2, hq, hT⟩ |
      ⟨_, _, _, _, hT⟩ | ⟨_, _, _, _, hbr⟩
    · rw [hq1] at hq; cases hq
    · rw [hq2] at hq; cases hq
    · refine ⟨by rw [hT]; simp [List.mem_append, hlog], fun hq3 => ?_⟩
      rw [hq3] at hq; cases hq
    · exact ⟨by rw [hT]; simp [List.mem_append, hlog],
        fun _ => by rw [hT]; simp [List.mem_append]⟩
    · rcases hbr with ⟨m2, hr, hT⟩ | ⟨_, m2, hq3, hT⟩ | ⟨_, _, hT⟩ <;>
        exact ⟨by rw [hT]; simp [List.mem_append, hlog],
          fun _ => by rw [hT]; simp [List.mem_append]⟩
  · intro m hdl hq1
    have hcfm : metroCfmOf envM = [] := by simp [metroCfmOf, hdl]
    rcases metroTop_cases envM with ⟨m2, hq, hT⟩ | ⟨_, _, hT⟩ | ⟨_, hcf, _⟩ |
      ⟨_, hcf, _⟩ | ⟨_, hcf, _⟩
    · rw [hq1] at hq; cases hq
    · obtain ⟨hlog, ok, hdlmem⟩ := nberTrace_err envM m hdl
      refine ⟨by rw [hT]; simp [List.mem_append, hlog], ⟨ok,
        by rw [hT]; simp [List.mem_append, hdlmem]⟩,
        ⟨[Eff.queryEff "counties" true] ++ nberTrace envM ++ [Eff.logMsg abortMsg],
         by rw [hT]; all_goals simp⟩, ?_, ?_⟩
      · rw [hT]
        simp [updMetroBatchesOf_append, updMetroBatchesOf_of_clean (nberTrace_clean envM)]
      · intro b
        rw [hT]
        intro hmem
        simp only [List.mem_append, List.mem_cons, List.not_mem_nil, or_false] at hmem
        rcases hmem with (hmem | hmem) | hmem
        · exact absurd hmem (by simp)
        · exact not_query_mem_clean (nberTrace_clean envM) "zips" b hmem
        · rcases hmem with hmem | hmem
          · exact absurd hmem (by simp)
          · exact absurd hmem (by simp)
    · exact absurd hcfm hcf
    · exact absurd hcfm hcf
    · exact absurd hcfm hcf

/-- Witness for C5 (amended) at a failed geo-data download and the failed-NBER
run. -/
theorem claim_C5_witness :
    (Eff.logMsg ("Download failed: " ++ "neterr") ∈ geoTop geoEnvDlFailW ∧
      (geoEnvDlFailW.allZipsQ = none →
        Eff.queryEff "allZips" true ∈ geoTop geoEnvDlFailW)) ∧
    (Eff.logMsg ("NBER download failed: " ++ "boom") ∈ metroTop envC5 ∧
      (∃ ok, Eff.downloadEff countyMasterUrl ok ∈ metroTop envC5) ∧
      EndsWith (metroTop envC5) [Eff.poolEnd] ∧
      updMetroBatchesOf (metroTop envC5) = [] ∧
      (∀ b, Eff.queryEff "zips" b ∉ metroTop envC5)) :=
  ⟨(claim_C5_amended geoEnvDlFailW envC5).1 "neterr" rfl rfl,
   (claim_C5_amended geoEnvDlFailW envC5).2.2 "boom" rfl rfl⟩

/-- C10 counterexample: a fully successful metro run cross-references exactly
two external tables (the NBER crosswalk and the county FIPS master), not 3-4
as claimed for each script. -/
theorem claim_C10_counterexample :
    dlUrls (metroTop metroEnvW) = [nberUrl, countyMasterUrl] ∧
    (dlUrls (metroTop metroEnvW)).dedup.length = 2 ∧
    ¬ 3 ≤ (dlUrls (metroTop metroEnvW)).dedup.length := by
  decide

/-- C10 (amended): `geo-enrich.js` references at most the ZIP-to-county CSV,
the ZIP-to-CBSA CSV and (conditionally — only when the ZIP-CBSA header has a
CBSA-code column but no metro-name column) the CBSA-names CSV, plus the
bundled zipcodes npm dataset; the metro script references at most two external
tables, the NBER crosswalk and the county FIPS master, the latter also being
the fallback downloaded when the NBER download fails. -/
theorem claim_C10_amended (envG : GeoEnv) (envM : MetroEnv) :
    List.Sublist (dlUrls (geoTop envG)) [geoDataUrl, zipCbsaUrl, cbsaNamesUrl] ∧
    List.Sublist (dlUrls (metroTop envM)) [nberUrl, countyMasterUrl] ∧
    (cbsaNamesUrl ∈ dlUrls (geoTop envG) →
      ∃ txt, envG.cbsaDL = Except.ok txt ∧
        ¬ 0 ≤ jsFindIdx hasMetroNameCol (parseCSV txt).header ∧
        0 ≤ jsFindIdx hasCbsaCol (parseCSV txt).header) ∧
    (∀ m, envM.nberDL = Except.error m → envM.countiesQ = none →
      ∃ ok, Eff.downloadEff countyMasterUrl ok ∈ metroTop envM) := by
  refine ⟨geo_dl_sub envG, metro_dl_sub envM, ?_, ?_⟩
  · intro hmem
    have hrb : dlUrls (runGeoBatches envG.updQ 0
        (batches envG.batchSize (geoUpdatesOf envG))).1 = [] :=
      dlUrls_of_upd (runGeoBatches_upd envG.updQ _ 0)
    rcases geoTop_cases envG with ⟨m, hq, hT⟩ | ⟨_, m, hq, hT⟩ | ⟨_, _, m, hq, hT⟩ |
      ⟨_, _, _, _, hT⟩ | ⟨_, _, _, _, hbr⟩
    · rw [hT] at hmem
      simp at hmem
    · rw [hT] at hmem
      simp [dlUrls_append, geoDlTrace_dl envG] at hmem
      exact absurd hmem (by decide)
    · rw [hT] at hmem
      simp [dlUrls_append, geoDlTrace_dl envG] at hmem
      rcases hmem with hmem | hmem
      · exact absurd hmem (by decide)
      · exact cbsaPhase_names envG hmem
    · rw [hT] at hmem
      simp [dlUrls_append, geoDlTrace_dl envG] at hmem
      rcases hmem with hmem | hmem
      · exact absurd hmem (by decide)
      · exact cbsaPhase_names envG hmem
    · rcases hbr with ⟨m, hr, hT⟩ | ⟨_, m, hq, hT⟩ | ⟨_, _, hT⟩ <;>
        (rw [hT] at hmem
         simp [dlUrls_append, geoDlTrace_dl envG, hrb] at hmem
         rcases hmem with hmem | hmem
         · exact absurd hmem (by decide)
         · exact cbsaPhase_names envG hmem)
  · intro m hdl hq1
    have hcfm : metroCfmOf envM = [] := by simp [metroCfmOf, hdl]
    rcases metroTop_cases envM with ⟨m2, hq, hT⟩ | ⟨_, _, hT⟩ | ⟨_, hcf, _⟩ |
      ⟨_, hcf, _⟩ | ⟨_, hcf, _⟩
    · rw [hq1] at hq; cases hq
    · obtain ⟨_, ok, hdlmem⟩ := nberTrace_err envM m hdl
      exact ⟨ok, by rw [hT]; simp [List.mem_append, hdlmem]⟩
    · exact absurd hcfm hcf
    · exact absurd hcfm hcf
    · exact absurd hcfm hcf

/-- Witness for C10 (amended): the download list of the geo script at a successful
dry run, and the fallback download at a failed-NBER run. -/
theorem claim_C10_witness :
    List.Sublist (dlUrls (geoTop geoEnvW)) [geoDataUrl, zipCbsaUrl, cbsaNamesUrl] ∧
    ∃ ok, Eff.downloadEff countyMasterUrl ok ∈ metroTop envC5 :=
  ⟨(claim_C10_amended geoEnvW envC5).1,
   (claim_C10_amended geoEnvW envC5).2.2.2 "boom" rfl rfl⟩

/-- Witness for C2 at the concrete dry-run environments. -/
theorem claim_C2_witness :
    updGeoBatchesOf (geoTop geoEnvW) = [] ∧ updMetroBatchesOf (geoTop geoEnvW) = [] ∧
    updGeoBatchesOf (metroTop metroEnvW) = [] ∧ updMetroBatchesOf (metroTop metroEnvW) = [] ∧
    (geoEnvW.gapsQ = none → geoEnvW.allZipsQ = none → geoEnvW.dbZipsQ = none →
      EndsWith (geoTop geoEnvW)
        [Eff.printGeoSamples ((geoUpdatesOf geoEnvW).take 15), Eff.poolEnd]) ∧
    (metroEnvW.countiesQ = none → metroEnvW.zipsQ = none → metroCfmOf metroEnvW ≠ [] →
      EndsWith (metroTop metroEnvW)
        [Eff.printMetroSamples ((metroUpdatesOf metroEnvW).take 15), Eff.poolEnd]) :=
  claim_C2_dry_run geoEnvW metroEnvW rfl rfl

end HousingEnrich
